import Mathlib

/-
Shared secret admission processor (`go/enclave/components/shared_secret_process.go`)

A shallow embedding of `SharedSecretProcessor` and its four methods
(`ProcessNetworkSecretMsgs`, `processSecretRequest`,
`verifyAttestationAndEncryptSecret`, `storeAttestation`).

The collaborators reached through interfaces or service pointers (registry
codec, attestation provider, secret service, storage, key service) are
arbitrary state-passing functions over a world `σ`: a call receives the current
world and returns its result together with the next world, so a collaborator
may answer differently on every call.  Package-level helpers that live outside
this file (`common.DecodeAttestation`, `VerifyIdentity`,
`gethcrypto.DecompressPubkey`, `crypto.CreateNetworkSecretResponseHash`) are
pure parameters collected in `Externals`.

Every collaborator call is recorded, with its arguments and its result, in a
list of `Call`s, in program order.  Logger calls do not influence control flow
and are not recorded.
-/

namespace SharedSecret

/-- Go `error` values.  `wrap msg cause` is `fmt.Errorf(msg + "%w", cause)`. -/
inductive GoError where
  | base (msg : String)
  | wrap (msg : String) (cause : GoError)
deriving DecidableEq

/-- Byte slices. -/
abbrev Bytes := List Nat

/-- The 20-byte `gethcommon.Address`, as a number. -/
abbrev Address := Nat

/-- The 32-byte hash handed to the signer. -/
abbrev Hash := List Nat

/-- An `*ecdsa.PublicKey`: the affine coordinates of the point. -/
structure PublicKey where
  X : Nat
  Y : Nat
deriving DecidableEq

/-- The Go pair `(T, error)`: exactly one of the two is meaningful. -/
inductive Result (α : Type) where
  | ok (val : α)
  | error (err : GoError)
deriving DecidableEq

/-- The report `common.AttestationReport`. -/
structure AttestationReport where
  Report : Bytes
  PubKey : Bytes
  EnclaveID : Address
  HostAddress : String
deriving DecidableEq

/-- The response `common.ProducedSecretResponse`. -/
structure ProducedSecretResponse where
  Secret : Bytes
  RequesterID : Address
  AttesterID : Address
  HostAddress : String
  Signature : Bytes
deriving DecidableEq

/-- The transaction `common.L1InitializeSecretTx`; only the attestation blob is read here. -/
structure L1InitializeSecretTx where
  Attestation : Bytes
deriving DecidableEq

/-- The transaction `common.L1RequestSecretTx`. -/
structure L1RequestSecretTx where
  Attestation : Bytes
deriving DecidableEq

/-- What `DecodeTx` may hand back: the two variants the processor asserts on,
and every other dynamic type (which fails both type assertions). -/
inductive L1TenTransaction where
  | initializeSecret (tx : L1InitializeSecretTx)
  | requestSecret (tx : L1RequestSecretTx)
  | other (tag : Nat)
deriving DecidableEq

/-- The event kinds of `common.L1TenEventType` that the processor asks for,
and the rest. -/
inductive L1TenEventType where
  | InitialiseSecretTx
  | SecretRequestTx
  | otherEvent (tag : Nat)
deriving DecidableEq

/-- The event record `common.L1TxData`; only the raw transaction is read here. -/
structure L1TxData where
  Transaction : Bytes
deriving DecidableEq

/-- The bundle `common.ProcessedL1Data`: the block header and, per event kind, the ordered
list of events (`GetEvents`). -/
structure ProcessedL1Data where
  BlockHeader : Nat
  GetEvents : L1TenEventType → List L1TxData

/-- One recorded collaborator call: its arguments and what it returned. -/
inductive Call where
  | decodeTx (tx : Bytes) (res : Result L1TenTransaction)
  | verifyReport (att : AttestationReport) (res : Result Bytes)
  | encryptSecretWithKey (pubKey : Bytes) (res : Result Bytes)
  | storeNewEnclave (enclaveID : Address) (key : PublicKey) (err : Option GoError)
  | getContractAddr (addr : Address)
  | sign (hash : Hash) (res : Result Bytes)
deriving DecidableEq

/-- The interface `contractlib.EnclaveRegistryLib`. -/
structure EnclaveRegistryLib (σ : Type) where
  DecodeTx : σ → Bytes → Result L1TenTransaction × σ
  GetContractAddr : σ → Address × σ

/-- The interface `AttestationProvider`, its verifying half. -/
structure AttestationProvider (σ : Type) where
  VerifyReport : σ → AttestationReport → Result Bytes × σ

/-- The service `crypto.SharedSecretService`. -/
structure SharedSecretService (σ : Type) where
  EncryptSecretWithKey : σ → Bytes → Result Bytes × σ

/-- The interface `storage.Storage`, the one method used. -/
structure Storage (σ : Type) where
  StoreNewEnclave : σ → Address → PublicKey → Option GoError × σ

/-- The service `crypto.EnclaveAttestedKeyService`. -/
structure EnclaveAttestedKeyService (σ : Type) where
  Sign : σ → Hash → Result Bytes × σ

/-- The processor, as built by `NewSharedSecretProcessor`. -/
structure SharedSecretProcessor (σ : Type) where
  enclaveRegistryLib : EnclaveRegistryLib σ
  sharedSecretService : SharedSecretService σ
  attestationProvider : AttestationProvider σ
  enclaveID : Address
  storage : Storage σ
  enclaveKeyService : EnclaveAttestedKeyService σ
  L1ChainID : Int

/-- The constructor `NewSharedSecretProcessor`: stores each argument in its field. -/
def NewSharedSecretProcessor {σ : Type} (enclaveRegistryLib : EnclaveRegistryLib σ)
    (attestationProvider : AttestationProvider σ) (enclaveID : Address)
    (storage : Storage σ) (sharedSecretService : SharedSecretService σ)
    (enclaveKeyService : EnclaveAttestedKeyService σ) (L1ChainID : Int) :
    SharedSecretProcessor σ :=
  { enclaveRegistryLib := enclaveRegistryLib
    attestationProvider := attestationProvider
    enclaveID := enclaveID
    storage := storage
    sharedSecretService := sharedSecretService
    enclaveKeyService := enclaveKeyService
    L1ChainID := L1ChainID }

/-- The package-level functions called by the processor and defined elsewhere. -/
structure Externals where
  DecodeAttestation : Bytes → Result AttestationReport
  VerifyIdentity : Bytes → AttestationReport → Option GoError
  DecompressPubkey : Bytes → Result PublicKey
  CreateNetworkSecretResponseHash : Address → Bytes → Int → Address → Result Hash

/-- The outcome of running a piece of the processor: the value it returns, the
world it leaves, and the collaborator calls it made, in order. -/
structure Step (σ α : Type) where
  val : α
  world : σ
  calls : List Call

section Embedding

variable {σ : Type} (env : Externals) (ssp : SharedSecretProcessor σ)

/-- The method `verifyAttestationAndEncryptSecret` (source lines 149-162). -/
def verifyAttestationAndEncryptSecret (w : σ) (att : AttestationReport) :
    Step σ (Result Bytes) :=
  let v := ssp.attestationProvider.VerifyReport w att
  match v.1 with
  | .error err => ⟨.error (.wrap "unable to verify report - " err), v.2, [.verifyReport att v.1]⟩
  | .ok data =>
    match env.VerifyIdentity data att with
    | some err =>
      ⟨.error (.wrap "unable to verify identity - " err), v.2, [.verifyReport att v.1]⟩
    | none =>
      let e := ssp.sharedSecretService.EncryptSecretWithKey v.2 att.PubKey
      ⟨e.1, e.2, [.verifyReport att v.1, .encryptSecretWithKey att.PubKey e.1]⟩

/-- The method `storeAttestation` (source lines 165-177). -/
def storeAttestation (w : σ) (att : AttestationReport) : Step σ (Option GoError) :=
  match env.DecompressPubkey att.PubKey with
  | .error err => ⟨some (.wrap "failed to parse public key " err), w, []⟩
  | .ok key =>
    let s := ssp.storage.StoreNewEnclave w att.EnclaveID key
    match s.1 with
    | some err =>
      ⟨some (.wrap "could not store attested key. Cause: " err), s.2,
        [.storeNewEnclave att.EnclaveID key s.1]⟩
    | none => ⟨none, s.2, [.storeNewEnclave att.EnclaveID key s.1]⟩

/-- The method `processSecretRequest` (source lines 101-146). -/
def processSecretRequest (w : σ) (req : L1RequestSecretTx) :
    Step σ (Result ProducedSecretResponse) :=
  match env.DecodeAttestation req.Attestation with
  | .error err => ⟨.error (.wrap "failed to decode attestation - " err), w, []⟩
  | .ok att =>
    let a := verifyAttestationAndEncryptSecret env ssp w att
    match a.val with
    | .error err =>
      ⟨.error (.wrap "secret request failed, no response will be published - " err),
        a.world, a.calls⟩
    | .ok secret =>
      let s := storeAttestation env ssp a.world att
      match s.val with
      | some err =>
        ⟨.error (.wrap "could not store attestation, no response will be published. Cause: " err),
          s.world, a.calls ++ s.calls⟩
      | none =>
        let g := ssp.enclaveRegistryLib.GetContractAddr s.world
        match env.CreateNetworkSecretResponseHash att.EnclaveID secret ssp.L1ChainID g.1 with
        | .error err =>
          ⟨.error (.wrap "failed to create network secret response hash: " err), g.2,
            a.calls ++ s.calls ++ [.getContractAddr g.1]⟩
        | .ok hash =>
          let sg := ssp.enclaveKeyService.Sign g.2 hash
          match sg.1 with
          | .error err =>
            ⟨.error (.wrap "failed to sign network secret response: " err), sg.2,
              a.calls ++ s.calls ++ [.getContractAddr g.1, .sign hash sg.1]⟩
          | .ok signature =>
            ⟨.ok { Secret := secret
                   RequesterID := att.EnclaveID
                   AttesterID := ssp.enclaveID
                   HostAddress := att.HostAddress
                   Signature := signature },
              sg.2, a.calls ++ s.calls ++ [.getContractAddr g.1, .sign hash sg.1]⟩

/-- The body of the first loop of `ProcessNetworkSecretMsgs` (source lines
48-68), for one initialize-secret event. -/
def initialiseSecretBody (w : σ) (txData : L1TxData) : Step σ Unit :=
  let d := ssp.enclaveRegistryLib.DecodeTx w txData.Transaction
  match d.1 with
  | .error _ => ⟨(), d.2, [.decodeTx txData.Transaction d.1]⟩
  | .ok (.initializeSecret initSecretTx) =>
    match env.DecodeAttestation initSecretTx.Attestation with
    | .error _ => ⟨(), d.2, [.decodeTx txData.Transaction d.1]⟩
    | .ok att =>
      let s := storeAttestation env ssp d.2 att
      ⟨(), s.world, .decodeTx txData.Transaction d.1 :: s.calls⟩
  | .ok _ => ⟨(), d.2, [.decodeTx txData.Transaction d.1]⟩

/-- The body of the second loop of `ProcessNetworkSecretMsgs` (source lines
71-92), for one request-secret event: `some resp` when `resp` is appended to
`responses`, `none` when the iteration ends in `continue`. -/
def secretRequestBody (w : σ) (txData : L1TxData) : Step σ (Option ProducedSecretResponse) :=
  let d := ssp.enclaveRegistryLib.DecodeTx w txData.Transaction
  match d.1 with
  | .error _ => ⟨none, d.2, [.decodeTx txData.Transaction d.1]⟩
  | .ok (.requestSecret scrtReqTx) =>
    let p := processSecretRequest env ssp d.2 scrtReqTx
    match p.val with
    | .error _ => ⟨none, p.world, .decodeTx txData.Transaction d.1 :: p.calls⟩
    | .ok resp => ⟨some resp, p.world, .decodeTx txData.Transaction d.1 :: p.calls⟩
  | .ok _ => ⟨none, d.2, [.decodeTx txData.Transaction d.1]⟩

/-- The first loop of `ProcessNetworkSecretMsgs`, over the initialize-secret
events, started in world `w`. -/
def initialiseSecretEvents (w : σ) (events : List L1TxData) : Step σ Unit :=
  events.foldl
    (fun acc txData =>
      let b := initialiseSecretBody env ssp acc.world txData
      ⟨(), b.world, acc.calls ++ b.calls⟩)
    ⟨(), w, []⟩

/-- The second loop of `ProcessNetworkSecretMsgs`, over the request-secret
events, started from the outcome `start` of the first loop with `responses`
empty; `responses = append(responses, resp)` adds at the end. -/
def secretRequestEvents (start : Step σ Unit) (events : List L1TxData) :
    Step σ (List ProducedSecretResponse) :=
  events.foldl
    (fun acc txData =>
      let b := secretRequestBody env ssp acc.world txData
      match b.val with
      | some resp => ⟨acc.val ++ [resp], b.world, acc.calls ++ b.calls⟩
      | none => ⟨acc.val, b.world, acc.calls ++ b.calls⟩)
    ⟨[], start.world, start.calls⟩

/-- The method `ProcessNetworkSecretMsgs` (source lines 43-99), started in world `w`. -/
def ProcessNetworkSecretMsgs (w : σ) (processed : ProcessedL1Data) (canShareSecret : Bool) :
    Step σ (List ProducedSecretResponse) :=
  let i := initialiseSecretEvents env ssp w (processed.GetEvents .InitialiseSecretTx)
  let r := secretRequestEvents env ssp i (processed.GetEvents .SecretRequestTx)
  if !canShareSecret then
    ⟨[], r.world, r.calls⟩
  else
    r

/-- The first loop unrolled from its head: the iteration for the first event,
then the rest of the loop in the world that iteration leaves. -/
def initialisePhase (w : σ) : List L1TxData → Step σ Unit
  | [] => ⟨(), w, []⟩
  | txData :: rest =>
    let b := initialiseSecretBody env ssp w txData
    let r := initialisePhase b.world rest
    ⟨(), r.world, b.calls ++ r.calls⟩

/-- The second loop unrolled from its head. -/
def requestPhase (w : σ) : List L1TxData → Step σ (List ProducedSecretResponse)
  | [] => ⟨[], w, []⟩
  | txData :: rest =>
    let b := secretRequestBody env ssp w txData
    let r := requestPhase b.world rest
    ⟨b.val.toList ++ r.val, r.world, b.calls ++ r.calls⟩

/-- The collection the specification describes for the request list: walking
the list in order, an event contributes the response of `processSecretRequest`
when its transaction decodes to the request variant and `processSecretRequest`
succeeds, and contributes nothing otherwise; each event is handled in the world
left by the previous one. -/
def expectedResponses (w : σ) : List L1TxData → List ProducedSecretResponse
  | [] => []
  | txData :: rest =>
    let d := ssp.enclaveRegistryLib.DecodeTx w txData.Transaction
    match d.1 with
    | .ok (.requestSecret req) =>
      let p := processSecretRequest env ssp d.2 req
      match p.val with
      | .ok resp => resp :: expectedResponses p.world rest
      | .error _ => expectedResponses p.world rest
    | _ => expectedResponses d.2 rest

end Embedding

/-- The `(enclave-id, key)` arguments of the `StoreNewEnclave` calls of a trace, in order. -/
def storeCalls : List Call → List (Address × PublicKey)
  | [] => []
  | .storeNewEnclave enclaveID key _ :: rest => (enclaveID, key) :: storeCalls rest
  | _ :: rest => storeCalls rest

/-- The transactions handed to `DecodeTx` in a trace, in order. -/
def decodedTxs : List Call → List Bytes
  | [] => []
  | .decodeTx tx _ :: rest => tx :: decodedTxs rest
  | _ :: rest => decodedTxs rest

/-- The hashes handed to `Sign` in a trace, in order. -/
def signedHashes : List Call → List Hash
  | [] => []
  | .sign hash _ :: rest => hash :: signedHashes rest
  | _ :: rest => signedHashes rest

/-- The addresses returned by `GetContractAddr` in a trace, in order. -/
def contractAddrs : List Call → List Address
  | [] => []
  | .getContractAddr addr :: rest => addr :: contractAddrs rest
  | _ :: rest => contractAddrs rest

/-- A property `R pre c` of a call `c` and the calls `pre` made before it holds
at every position of the trace. -/
def EachCall (R : List Call → Call → Prop) (tr : List Call) : Prop :=
  ∀ pre c post, tr = pre ++ c :: post → R pre c

/-- The possible call sequences of `processSecretRequest` on request `req`,
one constructor per point at which the function can return. -/
inductive RequestCalls (env : Externals) (req : L1RequestSecretTx) : List Call → Prop where
  | undecodable : RequestCalls env req []
  | unverified (att : AttestationReport) (r : Result Bytes)
      (hatt : env.DecodeAttestation req.Attestation = .ok att)
      (hrej : (∃ err, r = .error err) ∨ ∃ data err, r = .ok data ∧
        env.VerifyIdentity data att = some err) :
      RequestCalls env req [.verifyReport att r]
  | unsealed (att : AttestationReport) (data : Bytes) (e : Result Bytes)
      (hatt : env.DecodeAttestation req.Attestation = .ok att)
      (hid : env.VerifyIdentity data att = none)
      (hstop : (∃ err, e = .error err) ∨ ∃ err, env.DecompressPubkey att.PubKey = .error err) :
      RequestCalls env req [.verifyReport att (.ok data), .encryptSecretWithKey att.PubKey e]
  | stored (att : AttestationReport) (data secret : Bytes) (key : PublicKey)
      (serr : Option GoError) (rest : List Call)
      (hatt : env.DecodeAttestation req.Attestation = .ok att)
      (hid : env.VerifyIdentity data att = none)
      (hkey : env.DecompressPubkey att.PubKey = .ok key)
      (hrest : rest = [] ∨ (∃ addr, rest = [.getContractAddr addr]) ∨
        ∃ addr hash r, rest = [.getContractAddr addr, .sign hash r]) :
      RequestCalls env req
        (.verifyReport att (.ok data) :: .encryptSecretWithKey att.PubKey (.ok secret) ::
          .storeNewEnclave att.EnclaveID key serr :: rest)

/- A concrete processor.

Worlds are numbers counting the accepted store writes.  A raw transaction is a
tag byte followed by the attestation blob; a blob is the enclave id, the
verdict byte and the two-byte key bound by the quote, followed by the claimed
public key. -/

/-- Tag 1 decodes to the initialise variant, 2 to the request variant, 3 to
another variant; anything else does not decode. -/
def demoDecodeTx (w : Nat) (tx : Bytes) : Result L1TenTransaction × Nat :=
  match tx with
  | 1 :: blob => (.ok (.initializeSecret ⟨blob⟩), w)
  | 2 :: blob => (.ok (.requestSecret ⟨blob⟩), w)
  | 3 :: _ => (.ok (.other 3), w)
  | _ => (.error (.base "unknown transaction"), w)

/-- Parses `enclaveID :: verdict :: bound1 :: bound2 :: pubKey`. -/
def demoDecodeAttestation (blob : Bytes) : Result AttestationReport :=
  match blob with
  | enclaveID :: verdict :: bound1 :: bound2 :: pubKey =>
    .ok { Report := [verdict, bound1, bound2], PubKey := pubKey, EnclaveID := enclaveID,
          HostAddress := "node-2:10000" }
  | _ => .error (.base "malformed attestation")

/-- Accepts a report whose verdict byte is 1 and returns the key bound by it. -/
def demoVerifyReport (w : Nat) (att : AttestationReport) : Result Bytes × Nat :=
  match att.Report with
  | [1, bound1, bound2] => (.ok [bound1, bound2], w)
  | _ => (.error (.base "quote rejected"), w)

/-- Fails when the bound key differs from the claimed one. -/
def demoVerifyIdentity (data : Bytes) (att : AttestationReport) : Option GoError :=
  if data = att.PubKey then none else some (.base "public key mismatch")

/-- Decompresses `[2, x]` and `[3, x]`; anything else is malformed. -/
def demoDecompressPubkey (pubKey : Bytes) : Result PublicKey :=
  match pubKey with
  | [2, x] => .ok ⟨x, 2 * x⟩
  | [3, x] => .ok ⟨x, 2 * x + 1⟩
  | _ => .error (.base "invalid public key")

/-- Hashes by laying the four inputs out in order. -/
def demoCreateNetworkSecretResponseHash (requesterID : Address) (secret : Bytes) (chainID : Int)
    (registry : Address) : Result Hash :=
  .ok (requesterID :: secret ++ [chainID.toNat, registry])

/-- The package-level functions of the concrete processor. -/
def demoEnv : Externals :=
  { DecodeAttestation := demoDecodeAttestation
    VerifyIdentity := demoVerifyIdentity
    DecompressPubkey := demoDecompressPubkey
    CreateNetworkSecretResponseHash := demoCreateNetworkSecretResponseHash }

/-- The concrete processor: local enclave id 1, chain id 443, registry at
address 15; the store refuses enclave id 0 and counts the writes it accepts. -/
def demoProcessor : SharedSecretProcessor Nat :=
  NewSharedSecretProcessor
    { DecodeTx := demoDecodeTx, GetContractAddr := fun w => (15, w) }
    { VerifyReport := demoVerifyReport }
    1
    { StoreNewEnclave := fun w enclaveID _ =>
        if enclaveID = 0 then (some (.base "storage failure"), w) else (none, w + 1) }
    { EncryptSecretWithKey := fun w pubKey => (.ok (48 :: pubKey), w) }
    { Sign := fun w hash => (.ok (65 :: hash), w) }
    443

/-- A request from enclave 170 whose report verifies and binds the claimed key `[2, 7]`. -/
def validRequest : L1RequestSecretTx := ⟨[170, 1, 2, 7, 2, 7]⟩

/-- The attestation carried by `validRequest`. -/
def validAttestation : AttestationReport :=
  { Report := [1, 2, 7], PubKey := [2, 7], EnclaveID := 170, HostAddress := "node-2:10000" }

/-- The response to `validRequest`. -/
def validResponse : ProducedSecretResponse :=
  { Secret := [48, 2, 7], RequesterID := 170, AttesterID := 1, HostAddress := "node-2:10000",
    Signature := [65, 170, 48, 2, 7, 443, 15] }

/-- A request from enclave 170 whose report the verifier rejects. -/
def rejectedRequest : L1RequestSecretTx := ⟨[170, 0, 2, 7, 2, 7]⟩

/-- The attestation carried by `rejectedRequest`. -/
def rejectedAttestation : AttestationReport :=
  { Report := [0, 2, 7], PubKey := [2, 7], EnclaveID := 170, HostAddress := "node-2:10000" }

/-- A bundle made of the two event lists. -/
def bundleOf (initialise requests : List L1TxData) : ProcessedL1Data :=
  { BlockHeader := 0
    GetEvents := fun kind =>
      match kind with
      | .InitialiseSecretTx => initialise
      | .SecretRequestTx => requests
      | .otherEvent _ => [] }

/-- Three valid requests, from enclaves 170, 171 and 172, and no initialise event. -/
def threeValidRequests : ProcessedL1Data :=
  bundleOf [] [⟨[2, 170, 1, 2, 7, 2, 7]⟩, ⟨[2, 171, 1, 3, 8, 3, 8]⟩, ⟨[2, 172, 1, 2, 9, 2, 9]⟩]

/-- One initialise event for enclave 170 whose report the verifier would reject
(verdict 0, bound key `[9, 9]` against claimed key `[2, 7]`). -/
def unverifiedInitialise : ProcessedL1Data :=
  bundleOf [⟨[1, 170, 0, 9, 9, 2, 7]⟩] []

/-- The attestation carried by the event of `unverifiedInitialise`. -/
def unverifiedAttestation : AttestationReport :=
  { Report := [0, 9, 9], PubKey := [2, 7], EnclaveID := 170, HostAddress := "node-2:10000" }

/-- One initialise event for enclave 170 whose attestation parses but whose
public key `[5, 5]` does not decompress. -/
def malformedKeyInitialise : ProcessedL1Data :=
  bundleOf [⟨[1, 170, 1, 5, 5, 5, 5]⟩] []

/-- Two initialise events (the first for enclave 0, which the store refuses, the
second for enclave 170) and one valid request. -/
def mixedBundle : ProcessedL1Data :=
  bundleOf [⟨[1, 0, 1, 2, 7, 2, 7]⟩, ⟨[1, 170, 0, 9, 9, 3, 4]⟩] [⟨[2, 170, 1, 2, 7, 2, 7]⟩]

section Lemmas

variable {σ : Type} (env : Externals) (ssp : SharedSecretProcessor σ)

/-- When `verifyAttestationAndEncryptSecret` returns a ciphertext, the verifier
accepted, the identity check passed and the sealer produced that ciphertext. -/
theorem verifyAttestationAndEncryptSecret_ok (w : σ) (att : AttestationReport) (secret : Bytes)
    (h : (verifyAttestationAndEncryptSecret env ssp w att).val = .ok secret) :
    ∃ data,
      (ssp.attestationProvider.VerifyReport w att).1 = .ok data ∧
      env.VerifyIdentity data att = none ∧
      (ssp.sharedSecretService.EncryptSecretWithKey
        (ssp.attestationProvider.VerifyReport w att).2 att.PubKey).1 = .ok secret ∧
      (verifyAttestationAndEncryptSecret env ssp w att).world =
        (ssp.sharedSecretService.EncryptSecretWithKey
          (ssp.attestationProvider.VerifyReport w att).2 att.PubKey).2 ∧
      (verifyAttestationAndEncryptSecret env ssp w att).calls =
        [.verifyReport att (.ok data), .encryptSecretWithKey att.PubKey (.ok secret)] := by
  unfold verifyAttestationAndEncryptSecret at h ⊢
  cases hv : (ssp.attestationProvider.VerifyReport w att).1 with
  | error err => simp [hv] at h
  | ok data =>
    cases hi : env.VerifyIdentity data att with
    | some err => simp [hv, hi] at h
    | none =>
      simp only [hv, hi] at h ⊢
      refine ⟨data, ?_, ?_, ?_, ?_, ?_⟩ <;> simp_all

/-- When `storeAttestation` returns no error, the key decompressed and the
store accepted the binding. -/
theorem storeAttestation_none (w : σ) (att : AttestationReport)
    (h : (storeAttestation env ssp w att).val = none) :
    ∃ key,
      env.DecompressPubkey att.PubKey = .ok key ∧
      (ssp.storage.StoreNewEnclave w att.EnclaveID key).1 = none ∧
      (storeAttestation env ssp w att).world =
        (ssp.storage.StoreNewEnclave w att.EnclaveID key).2 ∧
      (storeAttestation env ssp w att).calls = [.storeNewEnclave att.EnclaveID key none] := by
  unfold storeAttestation at h ⊢
  cases hk : env.DecompressPubkey att.PubKey with
  | error err => simp [hk] at h
  | ok key =>
    cases hs : (ssp.storage.StoreNewEnclave w att.EnclaveID key).1 with
    | some err => simp [hk, hs] at h
    | none => refine ⟨key, ?_, ?_, ?_, ?_⟩ <;> simp_all

/-- The full account of a successful `processSecretRequest`: every step
succeeded, each on the world left by the previous one. -/
theorem processSecretRequest_ok (w : σ) (req : L1RequestSecretTx) (resp : ProducedSecretResponse)
    (h : (processSecretRequest env ssp w req).val = .ok resp) :
    ∃ att data secret key addr hash signature w1 w2 w3 w4 w5,
      env.DecodeAttestation req.Attestation = .ok att ∧
      ssp.attestationProvider.VerifyReport w att = (.ok data, w1) ∧
      env.VerifyIdentity data att = none ∧
      ssp.sharedSecretService.EncryptSecretWithKey w1 att.PubKey = (.ok secret, w2) ∧
      env.DecompressPubkey att.PubKey = .ok key ∧
      ssp.storage.StoreNewEnclave w2 att.EnclaveID key = (none, w3) ∧
      ssp.enclaveRegistryLib.GetContractAddr w3 = (addr, w4) ∧
      env.CreateNetworkSecretResponseHash att.EnclaveID secret ssp.L1ChainID addr = .ok hash ∧
      ssp.enclaveKeyService.Sign w4 hash = (.ok signature, w5) ∧
      resp = { Secret := secret, RequesterID := att.EnclaveID, AttesterID := ssp.enclaveID,
               HostAddress := att.HostAddress, Signature := signature } ∧
      (processSecretRequest env ssp w req).world = w5 ∧
      (processSecretRequest env ssp w req).calls =
        [.verifyReport att (.ok data), .encryptSecretWithKey att.PubKey (.ok secret),
         .storeNewEnclave att.EnclaveID key none, .getContractAddr addr,
         .sign hash (.ok signature)] := by
  unfold processSecretRequest at h ⊢
  cases hd : env.DecodeAttestation req.Attestation with
  | error err => simp [hd] at h
  | ok att =>
    simp only [hd] at h ⊢
    cases ha : (verifyAttestationAndEncryptSecret env ssp w att).val with
    | error err => simp [ha] at h
    | ok secret =>
      obtain ⟨data, hv, hi, he, haw, hac⟩ :=
        verifyAttestationAndEncryptSecret_ok env ssp w att secret ha
      simp only [ha] at h ⊢
      cases hs : (storeAttestation env ssp
          (verifyAttestationAndEncryptSecret env ssp w att).world att).val with
      | some err => simp [hs] at h
      | none =>
        obtain ⟨key, hk, hst, hsw, hsc⟩ := storeAttestation_none env ssp _ att hs
        simp only [hs] at h ⊢
        cases hh : env.CreateNetworkSecretResponseHash att.EnclaveID secret ssp.L1ChainID
            (ssp.enclaveRegistryLib.GetContractAddr (storeAttestation env ssp
              (verifyAttestationAndEncryptSecret env ssp w att).world att).world).1 with
        | error err => simp [hh] at h
        | ok hash =>
          simp only [hh] at h ⊢
          cases hg : (ssp.enclaveKeyService.Sign (ssp.enclaveRegistryLib.GetContractAddr
              (storeAttestation env ssp
                (verifyAttestationAndEncryptSecret env ssp w att).world att).world).2 hash).1 with
          | error err => simp [hg] at h
          | ok signature =>
            simp only [hg, Result.ok.injEq] at h ⊢
            rw [hsw, haw] at hh hg
            rw [haw] at hst
            rw [hac, hsc, hsw, haw]
            exact ⟨att, data, secret, key, _, hash, signature, _, _, _, _, _, rfl,
              Prod.ext hv rfl, hi, Prod.ext he rfl, hk, Prod.ext hst rfl, rfl, hh,
              Prod.ext hg rfl, h.symm, rfl, rfl⟩

theorem eachCall_nil (R : List Call → Call → Prop) : EachCall R [] := by
  intro pre c post h
  simp at h

theorem eachCall_append {R : List Call → Call → Prop}
    (hmono : ∀ x pre c, R pre c → R (x ++ pre) c) {a b : List Call}
    (ha : EachCall R a) (hb : EachCall R b) : EachCall R (a ++ b) := by
  intro pre c post h
  rcases List.append_eq_append_iff.mp h with ⟨m, rfl, hm⟩ | ⟨m, rfl, hm⟩
  · exact hmono a m c (hb m c post hm)
  · cases m with
    | nil =>
      simp only [List.nil_append] at hm
      have := hmono pre [] c (hb [] c post (by simpa using hm.symm))
      simpa using this
    | cons x m =>
      simp only [List.cons_append, List.cons.injEq] at hm
      obtain ⟨rfl, -⟩ := hm
      exact ha pre c m rfl

theorem processSecretRequest_calls (w : σ) (req : L1RequestSecretTx) :
    RequestCalls env req (processSecretRequest env ssp w req).calls := by
  unfold processSecretRequest
  cases hd : env.DecodeAttestation req.Attestation with
  | error err => exact .undecodable
  | ok att =>
    simp only []
    have hv : (verifyAttestationAndEncryptSecret env ssp w att).calls =
        [.verifyReport att (ssp.attestationProvider.VerifyReport w att).1] ∧
          (∃ err, (verifyAttestationAndEncryptSecret env ssp w att).val = .error err) ∧
          ((∃ err, (ssp.attestationProvider.VerifyReport w att).1 = .error err) ∨
            ∃ data err, (ssp.attestationProvider.VerifyReport w att).1 = .ok data ∧
              env.VerifyIdentity data att = some err) ∨
        ∃ data, env.VerifyIdentity data att = none ∧
          (verifyAttestationAndEncryptSecret env ssp w att).calls =
            [.verifyReport att (.ok data), .encryptSecretWithKey att.PubKey
              (verifyAttestationAndEncryptSecret env ssp w att).val] := by
      unfold verifyAttestationAndEncryptSecret
      cases hr : (ssp.attestationProvider.VerifyReport w att).1 with
      | error err => left; simp [hr]
      | ok data =>
        cases hi : env.VerifyIdentity data att with
        | some err => left; simp [hr, hi]
        | none => right; exact ⟨data, hi, by simp [hr, hi]⟩
    have hs : ∀ w1, ((storeAttestation env ssp w1 att).calls = [] ∧
          (∃ err, (storeAttestation env ssp w1 att).val = some err) ∧
          ∃ err, env.DecompressPubkey att.PubKey = .error err) ∨
        ∃ key serr, env.DecompressPubkey att.PubKey = .ok key ∧
          (storeAttestation env ssp w1 att).calls = [.storeNewEnclave att.EnclaveID key serr] := by
      intro w1
      unfold storeAttestation
      cases hk : env.DecompressPubkey att.PubKey with
      | error err => left; simp [hk]
      | ok key =>
        right
        refine ⟨key, (ssp.storage.StoreNewEnclave w1 att.EnclaveID key).1, rfl, ?_⟩
        simp only [hk]
        split <;> rfl
    rcases hv with ⟨hc, ⟨err, he⟩, hrej⟩ | ⟨data, hi, hc⟩
    · simp only [he, hc]
      exact .unverified att _ hd hrej
    · cases he : (verifyAttestationAndEncryptSecret env ssp w att).val with
      | error err =>
        simp only [hc, he]
        exact .unsealed att data _ hd hi (Or.inl ⟨err, rfl⟩)
      | ok secret =>
        simp only []
        rcases hs (verifyAttestationAndEncryptSecret env ssp w att).world with
          ⟨hsc, ⟨err, hse⟩, hk⟩ | ⟨key, serr, hk, hsc⟩
        · simp only [hse, hsc, hc, he, List.append_nil]
          exact .unsealed att data _ hd hi (Or.inr hk)
        · rw [he] at hc
          cases hsv : (storeAttestation env ssp
              (verifyAttestationAndEncryptSecret env ssp w att).world att).val with
          | some err =>
            simp only [hsc, hc]
            exact .stored att data secret key serr [] hd hi hk (Or.inl rfl)
          | none =>
            simp only []
            split
            · simp only [hsc, hc]
              exact .stored att data secret key serr _ hd hi hk (Or.inr (Or.inl ⟨_, rfl⟩))
            · split <;>
              · simp only [hsc, hc]
                exact .stored att data secret key serr _ hd hi hk
                  (Or.inr (Or.inr ⟨_, _, _, rfl⟩))

/-- The possible call sequences of one iteration of the request loop. -/
theorem secretRequestBody_calls (w : σ) (txData : L1TxData) :
    (∃ d, (secretRequestBody env ssp w txData).calls = [.decodeTx txData.Transaction d]) ∨
    ∃ req rest, RequestCalls env req rest ∧
      (secretRequestBody env ssp w txData).calls =
        .decodeTx txData.Transaction (.ok (.requestSecret req)) :: rest := by
  unfold secretRequestBody
  cases hd : (ssp.enclaveRegistryLib.DecodeTx w txData.Transaction).1 with
  | error err => left; exact ⟨.error err, by simp [hd]⟩
  | ok t =>
    cases t with
    | initializeSecret i => left; exact ⟨.ok (.initializeSecret i), by simp [hd]⟩
    | other tag => left; exact ⟨.ok (.other tag), by simp [hd]⟩
    | requestSecret req =>
      right
      refine ⟨req, _, processSecretRequest_calls env ssp
        (ssp.enclaveRegistryLib.DecodeTx w txData.Transaction).2 req, ?_⟩
      simp only [hd]
      split <;> rfl

/-- The possible call sequences of one iteration of the initialise loop. -/
theorem initialiseSecretBody_calls (w : σ) (txData : L1TxData) :
    (∃ d, (initialiseSecretBody env ssp w txData).calls = [.decodeTx txData.Transaction d]) ∨
    ∃ i att key serr,
      (ssp.enclaveRegistryLib.DecodeTx w txData.Transaction).1 = .ok (.initializeSecret i) ∧
      env.DecodeAttestation i.Attestation = .ok att ∧
      env.DecompressPubkey att.PubKey = .ok key ∧
      serr = (ssp.storage.StoreNewEnclave
        (ssp.enclaveRegistryLib.DecodeTx w txData.Transaction).2 att.EnclaveID key).1 ∧
      (initialiseSecretBody env ssp w txData).world = (ssp.storage.StoreNewEnclave
        (ssp.enclaveRegistryLib.DecodeTx w txData.Transaction).2 att.EnclaveID key).2 ∧
      (initialiseSecretBody env ssp w txData).calls =
        [.decodeTx txData.Transaction (.ok (.initializeSecret i)),
         .storeNewEnclave att.EnclaveID key serr] := by
  unfold initialiseSecretBody
  cases hd : (ssp.enclaveRegistryLib.DecodeTx w txData.Transaction).1 with
  | error err => left; exact ⟨.error err, by simp [hd]⟩
  | ok t =>
    cases t with
    | requestSecret req => left; exact ⟨.ok (.requestSecret req), by simp [hd]⟩
    | other tag => left; exact ⟨.ok (.other tag), by simp [hd]⟩
    | initializeSecret i =>
      cases ha : env.DecodeAttestation i.Attestation with
      | error err => left; exact ⟨.ok (.initializeSecret i), by simp [hd, ha]⟩
      | ok att =>
        unfold storeAttestation
        cases hk : env.DecompressPubkey att.PubKey with
        | error err => left; exact ⟨.ok (.initializeSecret i), by simp [hd, ha, hk]⟩
        | ok key =>
          right
          refine ⟨i, att, key, _, rfl, ha, hk, rfl, ?_, ?_⟩
          · simp only [hd, ha, hk]
            split <;> rfl
          · simp only [hd, ha, hk]
            split <;> rfl

/-- The fold of the first loop from any accumulator is the unrolled loop. -/
theorem initialise_foldl (events : List L1TxData) (w : σ) (tr : List Call) :
    events.foldl
      (fun (acc : Step σ Unit) txData =>
        let b := initialiseSecretBody env ssp acc.world txData
        (⟨(), b.world, acc.calls ++ b.calls⟩ : Step σ Unit))
      ⟨(), w, tr⟩ =
    ⟨(), (initialisePhase env ssp w events).world,
      tr ++ (initialisePhase env ssp w events).calls⟩ := by
  induction events generalizing w tr with
  | nil => simp [initialisePhase]
  | cons txData rest ih =>
    simp only [List.foldl_cons, initialisePhase]
    rw [ih]
    simp

theorem initialiseSecretEvents_eq (w : σ) (events : List L1TxData) :
    initialiseSecretEvents env ssp w events = initialisePhase env ssp w events := by
  unfold initialiseSecretEvents
  rw [initialise_foldl]
  simp

/-- The fold of the second loop from any accumulator is the unrolled loop. -/
theorem request_foldl (events : List L1TxData) (acc : List ProducedSecretResponse) (w : σ)
    (tr : List Call) :
    events.foldl
      (fun (acc : Step σ (List ProducedSecretResponse)) txData =>
        let b := secretRequestBody env ssp acc.world txData
        match b.val with
        | some resp =>
          (⟨acc.val ++ [resp], b.world, acc.calls ++ b.calls⟩ :
            Step σ (List ProducedSecretResponse))
        | none => ⟨acc.val, b.world, acc.calls ++ b.calls⟩)
      ⟨acc, w, tr⟩ =
    ⟨acc ++ (requestPhase env ssp w events).val, (requestPhase env ssp w events).world,
      tr ++ (requestPhase env ssp w events).calls⟩ := by
  induction events generalizing acc w tr with
  | nil => simp [requestPhase]
  | cons txData rest ih =>
    simp only [List.foldl_cons, requestPhase]
    cases hb : (secretRequestBody env ssp w txData).val with
    | none => simp only [hb]; rw [ih]; simp
    | some resp => simp only [hb]; rw [ih]; simp

theorem secretRequestEvents_eq (start : Step σ Unit) (events : List L1TxData) :
    secretRequestEvents env ssp start events =
      ⟨(requestPhase env ssp start.world events).val,
        (requestPhase env ssp start.world events).world,
        start.calls ++ (requestPhase env ssp start.world events).calls⟩ := by
  unfold secretRequestEvents
  rw [request_foldl]
  simp

/-- The method `ProcessNetworkSecretMsgs` in terms of the two unrolled loops. -/
theorem ProcessNetworkSecretMsgs_eq (w : σ) (processed : ProcessedL1Data)
    (canShareSecret : Bool) :
    ProcessNetworkSecretMsgs env ssp w processed canShareSecret =
      ⟨if canShareSecret then
          (requestPhase env ssp
            (initialisePhase env ssp w (processed.GetEvents .InitialiseSecretTx)).world
            (processed.GetEvents .SecretRequestTx)).val
        else [],
        (requestPhase env ssp
          (initialisePhase env ssp w (processed.GetEvents .InitialiseSecretTx)).world
          (processed.GetEvents .SecretRequestTx)).world,
        (initialisePhase env ssp w (processed.GetEvents .InitialiseSecretTx)).calls ++
        (requestPhase env ssp
          (initialisePhase env ssp w (processed.GetEvents .InitialiseSecretTx)).world
          (processed.GetEvents .SecretRequestTx)).calls⟩ := by
  unfold ProcessNetworkSecretMsgs
  simp only [secretRequestEvents_eq, initialiseSecretEvents_eq]
  cases canShareSecret <;> simp

theorem storeCalls_append (a b : List Call) :
    storeCalls (a ++ b) = storeCalls a ++ storeCalls b := by
  induction a with
  | nil => rfl
  | cons c a ih => cases c <;> simp [storeCalls, ih]

theorem decodedTxs_append (a b : List Call) :
    decodedTxs (a ++ b) = decodedTxs a ++ decodedTxs b := by
  induction a with
  | nil => rfl
  | cons c a ih => cases c <;> simp [decodedTxs, ih]

/-- What an iteration of the request loop that appends a response did. -/
theorem secretRequestBody_some (w : σ) (txData : L1TxData) (resp : ProducedSecretResponse)
    (h : (secretRequestBody env ssp w txData).val = some resp) :
    ∃ req,
      (ssp.enclaveRegistryLib.DecodeTx w txData.Transaction).1 = .ok (.requestSecret req) ∧
      (processSecretRequest env ssp (ssp.enclaveRegistryLib.DecodeTx w txData.Transaction).2
        req).val = .ok resp ∧
      (secretRequestBody env ssp w txData).calls =
        .decodeTx txData.Transaction (.ok (.requestSecret req)) ::
          (processSecretRequest env ssp (ssp.enclaveRegistryLib.DecodeTx w txData.Transaction).2
            req).calls := by
  unfold secretRequestBody at h ⊢
  cases hd : (ssp.enclaveRegistryLib.DecodeTx w txData.Transaction).1 with
  | error err => simp [hd] at h
  | ok t =>
    cases t with
    | initializeSecret i => simp [hd] at h
    | other tag => simp [hd] at h
    | requestSecret req =>
      simp only [hd] at h ⊢
      cases hp : (processSecretRequest env ssp
          (ssp.enclaveRegistryLib.DecodeTx w txData.Transaction).2 req).val with
      | error err => simp [hp] at h
      | ok r =>
        simp only [hp, Option.some.injEq] at h
        subst h
        exact ⟨req, rfl, hp, by simp [hp]⟩

/-- Every iteration of the request loop decodes exactly its own transaction. -/
theorem secretRequestBody_decodedTxs (w : σ) (txData : L1TxData) :
    decodedTxs (secretRequestBody env ssp w txData).calls = [txData.Transaction] := by
  rcases secretRequestBody_calls env ssp w txData with ⟨d, hd⟩ | ⟨req, rest, hr, hd⟩
  · rw [hd]; rfl
  · rw [hd]
    cases hr with
    | undecodable => rfl
    | unverified att r hatt hrej => rfl
    | unsealed att data e hatt hid hstop => rfl
    | stored att data secret key serr rest hatt hid hkey hrest =>
      rcases hrest with rfl | ⟨addr, rfl⟩ | ⟨addr, hash, r, rfl⟩ <;> rfl

/-- Every iteration of the request loop makes at most one store call. -/
theorem secretRequestBody_storeCalls_le (w : σ) (txData : L1TxData) :
    (storeCalls (secretRequestBody env ssp w txData).calls).length ≤ 1 := by
  rcases secretRequestBody_calls env ssp w txData with ⟨d, hd⟩ | ⟨req, rest, hr, hd⟩
  · rw [hd]; simp [storeCalls]
  · rw [hd]
    cases hr with
    | undecodable => simp [storeCalls]
    | unverified att r hatt hrej => simp [storeCalls]
    | unsealed att data e hatt hid hstop => simp [storeCalls]
    | stored att data secret key serr rest hatt hid hkey hrest =>
      rcases hrest with rfl | ⟨addr, rfl⟩ | ⟨addr, hash, r, rfl⟩ <;> simp [storeCalls]

/-- An iteration of the request loop that appends a response made exactly one
store call, for the requester of that response. -/
theorem secretRequestBody_some_storeCalls (w : σ) (txData : L1TxData)
    (resp : ProducedSecretResponse)
    (h : (secretRequestBody env ssp w txData).val = some resp) :
    (storeCalls (secretRequestBody env ssp w txData).calls).map Prod.fst =
      [resp.RequesterID] := by
  obtain ⟨req, -, hp, hc⟩ := secretRequestBody_some env ssp w txData resp h
  obtain ⟨att, data, secret, key, addr, hash, signature, w1, w2, w3, w4, w5, -, -, -,
    -, -, -, -, -, -, rfl, -, hcalls⟩ := processSecretRequest_ok env ssp _ req resp hp
  rw [hc, hcalls]
  rfl

/-- Every iteration of the initialise loop decodes exactly its own transaction. -/
theorem initialiseSecretBody_decodedTxs (w : σ) (txData : L1TxData) :
    decodedTxs (initialiseSecretBody env ssp w txData).calls = [txData.Transaction] := by
  rcases initialiseSecretBody_calls env ssp w txData with
    ⟨d, hd⟩ | ⟨i, att, key, serr, -, -, -, -, -, hd⟩ <;>
  · rw [hd]; rfl

theorem initialisePhase_decodedTxs (events : List L1TxData) (w : σ) :
    decodedTxs (initialisePhase env ssp w events).calls =
      events.map (fun txData => txData.Transaction) := by
  induction events generalizing w with
  | nil => rfl
  | cons txData rest ih =>
    simp only [initialisePhase, decodedTxs_append, initialiseSecretBody_decodedTxs, ih,
      List.map_cons, List.singleton_append]

theorem requestPhase_decodedTxs (events : List L1TxData) (w : σ) :
    decodedTxs (requestPhase env ssp w events).calls =
      events.map (fun txData => txData.Transaction) := by
  induction events generalizing w with
  | nil => rfl
  | cons txData rest ih =>
    simp only [requestPhase, decodedTxs_append, secretRequestBody_decodedTxs, ih,
      List.map_cons, List.singleton_append]

theorem requestPhase_length_le (events : List L1TxData) (w : σ) :
    (requestPhase env ssp w events).val.length ≤ events.length := by
  induction events generalizing w with
  | nil => simp [requestPhase]
  | cons txData rest ih =>
    simp only [requestPhase, List.length_append, List.length_cons]
    have h1 : (secretRequestBody env ssp w txData).val.toList.length ≤ 1 := by
      cases (secretRequestBody env ssp w txData).val <;> simp
    have h2 := ih (secretRequestBody env ssp w txData).world
    omega

theorem requestPhase_storeCalls_le (events : List L1TxData) (w : σ) :
    (storeCalls (requestPhase env ssp w events).calls).length ≤ events.length := by
  induction events generalizing w with
  | nil => simp [requestPhase, storeCalls]
  | cons txData rest ih =>
    simp only [requestPhase, storeCalls_append, List.length_append, List.length_cons]
    have h1 := secretRequestBody_storeCalls_le env ssp w txData
    have h2 := ih (secretRequestBody env ssp w txData).world
    omega

/-- When every request event yields a response, the store calls of the request
loop are one per event, for the requesters of the responses, in order. -/
theorem requestPhase_all_valid (events : List L1TxData) (w : σ)
    (h : (requestPhase env ssp w events).val.length = events.length) :
    (storeCalls (requestPhase env ssp w events).calls).map Prod.fst =
      (requestPhase env ssp w events).val.map (fun resp => resp.RequesterID) := by
  induction events generalizing w with
  | nil => simp [requestPhase, storeCalls]
  | cons txData rest ih =>
    simp only [requestPhase, List.length_append, List.length_cons] at h
    have h2 := requestPhase_length_le env ssp rest (secretRequestBody env ssp w txData).world
    cases hb : (secretRequestBody env ssp w txData).val with
    | none =>
      rw [hb] at h
      simp at h
      omega
    | some resp =>
      rw [hb] at h
      simp only [Option.toList_some, List.length_singleton] at h
      have h3 := ih (secretRequestBody env ssp w txData).world (by omega)
      simp only [requestPhase, storeCalls_append, List.map_append, hb, Option.toList_some, h3,
        secretRequestBody_some_storeCalls env ssp w txData resp hb, List.map_cons, List.map_nil]

theorem requestPhase_val_eq (events : List L1TxData) (w : σ) :
    (requestPhase env ssp w events).val = expectedResponses env ssp w events := by
  induction events generalizing w with
  | nil => rfl
  | cons txData rest ih =>
    simp only [requestPhase, expectedResponses, secretRequestBody]
    cases hd : (ssp.enclaveRegistryLib.DecodeTx w txData.Transaction).1 with
    | error err => simp [ih]
    | ok t =>
      cases t with
      | initializeSecret i => simp [ih]
      | other tag => simp [ih]
      | requestSecret req =>
        simp only []
        cases hp : (processSecretRequest env ssp
            (ssp.enclaveRegistryLib.DecodeTx w txData.Transaction).2 req).val with
        | error err => simp [ih]
        | ok r => simp [ih]

theorem eachCall_initialisePhase {R : List Call → Call → Prop}
    (hmono : ∀ x pre c, R pre c → R (x ++ pre) c) (events : List L1TxData)
    (hbody : ∀ w txData, txData ∈ events →
      EachCall R (initialiseSecretBody env ssp w txData).calls) (w : σ) :
    EachCall R (initialisePhase env ssp w events).calls := by
  induction events generalizing w with
  | nil => exact eachCall_nil R
  | cons txData rest ih =>
    simp only [initialisePhase]
    exact eachCall_append hmono (hbody w txData (List.mem_cons_self _ _))
      (ih (fun w t ht => hbody w t (List.mem_cons_of_mem _ ht)) _)

theorem eachCall_requestPhase {R : List Call → Call → Prop}
    (hmono : ∀ x pre c, R pre c → R (x ++ pre) c) (events : List L1TxData)
    (hbody : ∀ w txData, txData ∈ events →
      EachCall R (secretRequestBody env ssp w txData).calls) (w : σ) :
    EachCall R (requestPhase env ssp w events).calls := by
  induction events generalizing w with
  | nil => exact eachCall_nil R
  | cons txData rest ih =>
    simp only [requestPhase]
    exact eachCall_append hmono (hbody w txData (List.mem_cons_self _ _))
      (ih (fun w t ht => hbody w t (List.mem_cons_of_mem _ ht)) _)

/-- In one iteration of the request loop, a sealing call comes right after the
decode of a request transaction and an accepting verifier call. -/
theorem secretRequestBody_encrypt (w : σ) (txData : L1TxData) :
    EachCall (fun pre c => ∀ pk res, c = .encryptSecretWithKey pk res →
      ∃ req att data,
        pre = [.decodeTx txData.Transaction (.ok (.requestSecret req)),
               .verifyReport att (.ok data)] ∧
        env.DecodeAttestation req.Attestation = .ok att ∧
        env.VerifyIdentity data att = none ∧ pk = att.PubKey)
      (secretRequestBody env ssp w txData).calls := by
  intro pre c post h pk res hc
  subst hc
  rcases secretRequestBody_calls env ssp w txData with ⟨d, hd⟩ | ⟨req, rest, hr, hd⟩
  · rw [hd] at h
    simp [List.cons_eq_append_iff] at h
  · rw [hd] at h
    cases hr with
    | undecodable => simp [List.cons_eq_append_iff] at h
    | unverified att r hatt hrej => simp [List.cons_eq_append_iff] at h
    | unsealed att data e hatt hid hstop =>
      simp [List.cons_eq_append_iff] at h
      obtain ⟨_, rfl, _, rfl, rfl, ⟨rfl, rfl⟩, rfl⟩ := h
      exact ⟨req, att, data, rfl, hatt, hid, rfl⟩
    | stored att data secret key serr rest hatt hid hkey hrest =>
      rcases hrest with rfl | ⟨addr, rfl⟩ | ⟨addr, hash, r, rfl⟩ <;>
      · simp [List.cons_eq_append_iff] at h
        obtain ⟨_, rfl, _, rfl, rfl, ⟨rfl, rfl⟩, rfl⟩ := h
        exact ⟨req, att, data, rfl, hatt, hid, rfl⟩

/-- In one iteration of the request loop, a store call comes right after the
decode of a request transaction, an accepting verifier call and a successful
sealing call, and writes the binding of that attestation. -/
theorem secretRequestBody_store (w : σ) (txData : L1TxData) :
    EachCall (fun pre c => ∀ enclaveID key serr, c = .storeNewEnclave enclaveID key serr →
      ∃ req att data secret,
        pre = [.decodeTx txData.Transaction (.ok (.requestSecret req)),
               .verifyReport att (.ok data),
               .encryptSecretWithKey att.PubKey (.ok secret)] ∧
        env.DecodeAttestation req.Attestation = .ok att ∧
        env.VerifyIdentity data att = none ∧ enclaveID = att.EnclaveID ∧
        env.DecompressPubkey att.PubKey = .ok key)
      (secretRequestBody env ssp w txData).calls := by
  intro pre c post h enclaveID key serr hc
  subst hc
  rcases secretRequestBody_calls env ssp w txData with ⟨d, hd⟩ | ⟨req, rest, hr, hd⟩
  · rw [hd] at h
    simp [List.cons_eq_append_iff] at h
  · rw [hd] at h
    cases hr with
    | undecodable => simp [List.cons_eq_append_iff] at h
    | unverified att r hatt hrej => simp [List.cons_eq_append_iff] at h
    | unsealed att data e hatt hid hstop => simp [List.cons_eq_append_iff] at h
    | stored att data secret key' serr' rest hatt hid hkey hrest =>
      rcases hrest with rfl | ⟨addr, rfl⟩ | ⟨addr, hash, r, rfl⟩ <;>
      · simp [List.cons_eq_append_iff] at h
        obtain ⟨_, rfl, _, rfl, _, rfl, rfl, ⟨rfl, rfl, rfl⟩, rfl⟩ := h
        exact ⟨req, att, data, secret, rfl, hatt, hid, rfl, hkey⟩

/-- In one iteration of the initialise loop, a store call comes right after the
decode of an initialise transaction and writes the binding of its attestation;
the iteration makes no verifier call and no sealing call. -/
theorem initialiseSecretBody_store (w : σ) (txData : L1TxData) :
    EachCall (fun pre c =>
      (∀ enclaveID key serr, c = .storeNewEnclave enclaveID key serr →
        ∃ i att,
          pre = [.decodeTx txData.Transaction (.ok (.initializeSecret i))] ∧
          env.DecodeAttestation i.Attestation = .ok att ∧ enclaveID = att.EnclaveID ∧
          env.DecompressPubkey att.PubKey = .ok key) ∧
      (∀ att r, c ≠ .verifyReport att r) ∧
      (∀ pk res, c ≠ .encryptSecretWithKey pk res))
      (initialiseSecretBody env ssp w txData).calls := by
  intro pre c post h
  rcases initialiseSecretBody_calls env ssp w txData with
    ⟨d, hd⟩ | ⟨i, att, key, serr, -, hatt, hkey, -, -, hd⟩
  · rw [hd] at h
    simp [List.cons_eq_append_iff] at h
    obtain ⟨rfl, rfl, rfl⟩ := h
    simp
  · rw [hd] at h
    simp [List.cons_eq_append_iff] at h
    rcases h with ⟨rfl, rfl, rfl⟩ | ⟨_, rfl, rfl, rfl, rfl⟩
    · simp
    · refine ⟨?_, by simp, by simp⟩
      intro enclaveID key' serr' hc
      cases hc
      exact ⟨i, att, rfl, hatt, rfl, hkey⟩

theorem eachCall_mem {R : List Call → Call → Prop} {tr : List Call} (h : EachCall R tr)
    {c : Call} (hc : c ∈ tr) : ∃ pre, R pre c := by
  obtain ⟨pre, post, rfl⟩ := List.append_of_mem hc
  exact ⟨pre, h pre c post rfl⟩

theorem initialisePhase_append (a b : List L1TxData) (w : σ) :
    initialisePhase env ssp w (a ++ b) =
      ⟨(), (initialisePhase env ssp (initialisePhase env ssp w a).world b).world,
        (initialisePhase env ssp w a).calls ++
          (initialisePhase env ssp (initialisePhase env ssp w a).world b).calls⟩ := by
  induction a generalizing w with
  | nil => simp [initialisePhase]
  | cons txData rest ih =>
    have h := ih (initialiseSecretBody env ssp w txData).world
    show (⟨(), _, _⟩ : Step σ Unit) = _
    simp only [initialisePhase]
    show (⟨(), (initialisePhase env ssp (initialiseSecretBody env ssp w txData).world
      (rest ++ b)).world, (initialiseSecretBody env ssp w txData).calls ++
      (initialisePhase env ssp (initialiseSecretBody env ssp w txData).world
        (rest ++ b)).calls⟩ : Step σ Unit) = _
    rw [h]
    simp

/-- An initialise iteration whose transaction decodes to the initialise variant,
whose attestation parses and whose key decompresses makes the store call,
whatever the store answers, and leaves the world the store leaves. -/
theorem initialiseSecretBody_stored (w : σ) (txData : L1TxData) (i : L1InitializeSecretTx)
    (att : AttestationReport) (key : PublicKey)
    (hdec : (ssp.enclaveRegistryLib.DecodeTx w txData.Transaction).1 = .ok (.initializeSecret i))
    (hatt : env.DecodeAttestation i.Attestation = .ok att)
    (hkey : env.DecompressPubkey att.PubKey = .ok key) :
    (initialiseSecretBody env ssp w txData).calls =
      [.decodeTx txData.Transaction (.ok (.initializeSecret i)),
       .storeNewEnclave att.EnclaveID key (ssp.storage.StoreNewEnclave
         (ssp.enclaveRegistryLib.DecodeTx w txData.Transaction).2 att.EnclaveID key).1] ∧
    (initialiseSecretBody env ssp w txData).world =
      (ssp.storage.StoreNewEnclave
        (ssp.enclaveRegistryLib.DecodeTx w txData.Transaction).2 att.EnclaveID key).2 := by
  unfold initialiseSecretBody storeAttestation
  simp only [hdec, hatt, hkey]
  split <;> exact ⟨rfl, rfl⟩

/-- An initialise iteration whose transaction decodes to the initialise variant
and whose attestation parses, but whose key does not decompress, makes no call
after the decode and leaves the world the decode leaves. -/
theorem initialiseSecretBody_malformed (w : σ) (txData : L1TxData) (i : L1InitializeSecretTx)
    (att : AttestationReport) (err : GoError)
    (hdec : (ssp.enclaveRegistryLib.DecodeTx w txData.Transaction).1 = .ok (.initializeSecret i))
    (hatt : env.DecodeAttestation i.Attestation = .ok att)
    (hkey : env.DecompressPubkey att.PubKey = .error err) :
    (initialiseSecretBody env ssp w txData).calls =
      [.decodeTx txData.Transaction (.ok (.initializeSecret i))] ∧
    (initialiseSecretBody env ssp w txData).world =
      (ssp.enclaveRegistryLib.DecodeTx w txData.Transaction).2 := by
  unfold initialiseSecretBody storeAttestation
  simp [hdec, hatt, hkey]

/-- The calls of `ProcessNetworkSecretMsgs` around one initialise event: those
of the earlier initialise events, those of the iteration for this event, those
of the later initialise events and those of the request loop. -/
theorem ProcessNetworkSecretMsgs_calls_split (w : σ) (processed : ProcessedL1Data)
    (canShareSecret : Bool) (earlier later : List L1TxData) (txData : L1TxData)
    (hev : processed.GetEvents .InitialiseSecretTx = earlier ++ txData :: later) :
    (ProcessNetworkSecretMsgs env ssp w processed canShareSecret).calls =
      (initialiseSecretEvents env ssp w earlier).calls ++
        (initialiseSecretBody env ssp (initialiseSecretEvents env ssp w earlier).world
          txData).calls ++
        (initialiseSecretEvents env ssp
          (initialiseSecretBody env ssp (initialiseSecretEvents env ssp w earlier).world
            txData).world later).calls ++
        (secretRequestEvents env ssp
          ⟨(), (initialiseSecretEvents env ssp
            (initialiseSecretBody env ssp (initialiseSecretEvents env ssp w earlier).world
              txData).world later).world, []⟩
          (processed.GetEvents .SecretRequestTx)).calls := by
  simp only [ProcessNetworkSecretMsgs_eq, initialiseSecretEvents_eq, secretRequestEvents_eq,
    List.nil_append]
  rw [hev, initialisePhase_append]
  simp only [initialisePhase, List.append_assoc]

/-- Conversely: when every step succeeds, each on the world left by the
previous one, `processSecretRequest` returns the response built from them. -/
theorem processSecretRequest_of_steps (w : σ) (req : L1RequestSecretTx)
    (att : AttestationReport) (data secret : Bytes) (key : PublicKey) (addr : Address)
    (hash : Hash) (signature : Bytes) (w1 w2 w3 w4 w5 : σ)
    (hatt : env.DecodeAttestation req.Attestation = .ok att)
    (hver : ssp.attestationProvider.VerifyReport w att = (.ok data, w1))
    (hid : env.VerifyIdentity data att = none)
    (henc : ssp.sharedSecretService.EncryptSecretWithKey w1 att.PubKey = (.ok secret, w2))
    (hkey : env.DecompressPubkey att.PubKey = .ok key)
    (hstore : ssp.storage.StoreNewEnclave w2 att.EnclaveID key = (none, w3))
    (haddr : ssp.enclaveRegistryLib.GetContractAddr w3 = (addr, w4))
    (hhash : env.CreateNetworkSecretResponseHash att.EnclaveID secret ssp.L1ChainID addr =
      .ok hash)
    (hsign : ssp.enclaveKeyService.Sign w4 hash = (.ok signature, w5)) :
    (processSecretRequest env ssp w req).val =
      .ok { Secret := secret, RequesterID := att.EnclaveID, AttesterID := ssp.enclaveID,
            HostAddress := att.HostAddress, Signature := signature } := by
  simp [processSecretRequest, verifyAttestationAndEncryptSecret, storeAttestation, hatt, hver,
    hid, henc, hkey, hstore, haddr, hhash, hsign]

/-- Claim C1. With `canShareSecret = false`, `ProcessNetworkSecretMsgs` returns the
empty collection, for every bundle, every starting world and every behaviour of
the collaborators. -/
theorem C1_no_sharing_returns_empty (w : σ) (processed : ProcessedL1Data) :
    (ProcessNetworkSecretMsgs env ssp w processed false).val = [] := by
  simp [ProcessNetworkSecretMsgs]

/-- Claim C3. `processSecretRequest` returns a response exactly when, in this
order and each on the world left by the previous step, the attestation decoded,
`VerifyReport` accepted, `VerifyIdentity` passed, `EncryptSecretWithKey`
succeeded, the public key decompressed, `StoreNewEnclave` was called with
`(att.EnclaveID, decompressed att.PubKey)` and returned no error, the response
hash was created and `Sign` succeeded; the calls it made are then exactly these
five, in this order.  If any step fails there is no response. -/
theorem C3_response_iff_all_steps_succeed (w : σ) (req : L1RequestSecretTx)
    (resp : ProducedSecretResponse) :
    (processSecretRequest env ssp w req).val = .ok resp ↔
    ∃ att data secret key addr hash signature w1 w2 w3 w4 w5,
      env.DecodeAttestation req.Attestation = .ok att ∧
      ssp.attestationProvider.VerifyReport w att = (.ok data, w1) ∧
      env.VerifyIdentity data att = none ∧
      ssp.sharedSecretService.EncryptSecretWithKey w1 att.PubKey = (.ok secret, w2) ∧
      env.DecompressPubkey att.PubKey = .ok key ∧
      ssp.storage.StoreNewEnclave w2 att.EnclaveID key = (none, w3) ∧
      ssp.enclaveRegistryLib.GetContractAddr w3 = (addr, w4) ∧
      env.CreateNetworkSecretResponseHash att.EnclaveID secret ssp.L1ChainID addr = .ok hash ∧
      ssp.enclaveKeyService.Sign w4 hash = (.ok signature, w5) ∧
      resp = { Secret := secret, RequesterID := att.EnclaveID, AttesterID := ssp.enclaveID,
               HostAddress := att.HostAddress, Signature := signature } ∧
      (processSecretRequest env ssp w req).world = w5 ∧
      (processSecretRequest env ssp w req).calls =
        [.verifyReport att (.ok data), .encryptSecretWithKey att.PubKey (.ok secret),
         .storeNewEnclave att.EnclaveID key none, .getContractAddr addr,
         .sign hash (.ok signature)] := by
  constructor
  · exact processSecretRequest_ok env ssp w req resp
  · rintro ⟨att, data, secret, key, addr, hash, signature, w1, w2, w3, w4, w5, hatt, hver, hid,
      henc, hkey, hstore, haddr, hhash, hsign, rfl, -, -⟩
    exact processSecretRequest_of_steps env ssp w req att data secret key addr hash signature
      w1 w2 w3 w4 w5 hatt hver hid henc hkey hstore haddr hhash hsign

/-- Claim C4. A response returned by `processSecretRequest` for a request whose
attestation decodes to `att` has `RequesterID = att.EnclaveID`, `AttesterID` the
enclave id given to `NewSharedSecretProcessor`, `HostAddress = att.HostAddress`,
`Secret` the ciphertext returned by `EncryptSecretWithKey att.PubKey` and
`Signature` the value returned by `Sign`. -/
theorem C4_response_fields (enclaveRegistryLib : EnclaveRegistryLib σ)
    (attestationProvider : AttestationProvider σ) (enclaveID : Address) (storage : Storage σ)
    (sharedSecretService : SharedSecretService σ)
    (enclaveKeyService : EnclaveAttestedKeyService σ) (L1ChainID : Int)
    (w : σ) (req : L1RequestSecretTx) (att : AttestationReport) (resp : ProducedSecretResponse)
    (hatt : env.DecodeAttestation req.Attestation = .ok att)
    (h : (processSecretRequest env
      (NewSharedSecretProcessor enclaveRegistryLib attestationProvider enclaveID storage
        sharedSecretService enclaveKeyService L1ChainID) w req).val = .ok resp) :
    resp.RequesterID = att.EnclaveID ∧
    resp.AttesterID = enclaveID ∧
    resp.HostAddress = att.HostAddress ∧
    (sharedSecretService.EncryptSecretWithKey (attestationProvider.VerifyReport w att).2
      att.PubKey).1 = .ok resp.Secret ∧
    (∃ hash w4, (enclaveKeyService.Sign w4 hash).1 = .ok resp.Signature ∧
      Call.sign hash (.ok resp.Signature) ∈ (processSecretRequest env
        (NewSharedSecretProcessor enclaveRegistryLib attestationProvider enclaveID storage
          sharedSecretService enclaveKeyService L1ChainID) w req).calls) ∧
    Call.encryptSecretWithKey att.PubKey (.ok resp.Secret) ∈ (processSecretRequest env
      (NewSharedSecretProcessor enclaveRegistryLib attestationProvider enclaveID storage
        sharedSecretService enclaveKeyService L1ChainID) w req).calls := by
  obtain ⟨att', data, secret, key, addr, hash, signature, w1, w2, w3, w4, w5, hatt', hver, hid,
    henc, hkey, hstore, haddr, hhash, hsign, rfl, -, hcalls⟩ :=
    processSecretRequest_ok env _ w req resp h
  rw [hatt] at hatt'
  cases hatt'
  simp only [NewSharedSecretProcessor] at hver henc hsign
  refine ⟨rfl, rfl, rfl, ?_, ⟨hash, w4, ?_, ?_⟩, ?_⟩
  · rw [hver, henc]
  · rw [hsign]
  · rw [hcalls]; simp
  · rw [hcalls]; simp

/-- Claim C8. For a request that yields a response, the one value passed to `Sign`
is the hash computed by `CreateNetworkSecretResponseHash` from
`(att.EnclaveID, the sealed secret of the response, the L1 chain id given at
construction, the address returned by GetContractAddr)`, in this argument
order; so two such requests (possibly handled by two processors) with equal
requester id, sealed secret, chain id and registry address are signed over the
same hash. -/
theorem C8_signed_hash (ssp' : SharedSecretProcessor σ) (w w' : σ)
    (req req' : L1RequestSecretTx) (resp resp' : ProducedSecretResponse)
    (h : (processSecretRequest env ssp w req).val = .ok resp)
    (h' : (processSecretRequest env ssp' w' req').val = .ok resp') :
    (∃ att addr hash,
      env.DecodeAttestation req.Attestation = .ok att ∧
      resp.RequesterID = att.EnclaveID ∧
      contractAddrs (processSecretRequest env ssp w req).calls = [addr] ∧
      env.CreateNetworkSecretResponseHash att.EnclaveID resp.Secret ssp.L1ChainID addr =
        .ok hash ∧
      signedHashes (processSecretRequest env ssp w req).calls = [hash]) ∧
    (resp.RequesterID = resp'.RequesterID → resp.Secret = resp'.Secret →
      ssp.L1ChainID = ssp'.L1ChainID →
      contractAddrs (processSecretRequest env ssp w req).calls =
        contractAddrs (processSecretRequest env ssp' w' req').calls →
      signedHashes (processSecretRequest env ssp w req).calls =
        signedHashes (processSecretRequest env ssp' w' req').calls) := by
  obtain ⟨att, data, secret, key, addr, hash, signature, w1, w2, w3, w4, w5, hatt, -, -,
    -, -, -, -, hhash, -, rfl, -, hcalls⟩ := processSecretRequest_ok env ssp w req resp h
  obtain ⟨att', data', secret', key', addr', hash', signature', v1, v2, v3, v4, v5, -, -, -,
    -, -, -, -, hhash', -, rfl, -, hcalls'⟩ := processSecretRequest_ok env ssp' w' req' resp' h'
  rw [hcalls, hcalls']
  refine ⟨⟨att, addr, hash, hatt, rfl, by simp [contractAddrs], hhash, by simp [signedHashes]⟩,
    ?_⟩
  intro hid hsec hchain haddr
  simp only [contractAddrs, signedHashes, List.cons.injEq, and_true] at haddr ⊢
  simp only at hid hsec
  rw [hid, hsec, hchain, haddr, hhash'] at hhash
  cases hhash
  rfl

/-- Claim C2. For a request whose attestation decodes, when `VerifyReport` returns
an error, or accepts but `VerifyIdentity` reports a mismatch,
`processSecretRequest` returns an error after the single `VerifyReport` call:
it makes no `StoreNewEnclave` call, and the loop iteration for an event decoding
to this request appends no response, the loop going on with the later events. -/
theorem C2_rejected_request (w : σ) (req : L1RequestSecretTx) (att : AttestationReport)
    (hatt : env.DecodeAttestation req.Attestation = .ok att)
    (hrej : (∃ err, (ssp.attestationProvider.VerifyReport w att).1 = .error err) ∨
      ∃ data err, (ssp.attestationProvider.VerifyReport w att).1 = .ok data ∧
        env.VerifyIdentity data att = some err) :
    (∃ err, (processSecretRequest env ssp w req).val = .error err) ∧
    (processSecretRequest env ssp w req).calls =
      [.verifyReport att (ssp.attestationProvider.VerifyReport w att).1] ∧
    storeCalls (processSecretRequest env ssp w req).calls = [] ∧
    ∀ (start : Step σ Unit) (txData : L1TxData) (rest : List L1TxData),
      ssp.enclaveRegistryLib.DecodeTx start.world txData.Transaction =
        (.ok (.requestSecret req), w) →
      (secretRequestBody env ssp start.world txData).val = none ∧
      storeCalls (secretRequestBody env ssp start.world txData).calls = [] ∧
      (secretRequestEvents env ssp start (txData :: rest)).val =
        (secretRequestEvents env ssp
          ⟨(), (secretRequestBody env ssp start.world txData).world, []⟩ rest).val := by
  have hp : (∃ err, (processSecretRequest env ssp w req).val = .error err) ∧
      (processSecretRequest env ssp w req).calls =
        [.verifyReport att (ssp.attestationProvider.VerifyReport w att).1] := by
    unfold processSecretRequest verifyAttestationAndEncryptSecret
    rcases hrej with ⟨err, he⟩ | ⟨data, err, hd, hi⟩
    · simp [hatt, he]
    · simp [hatt, hd, hi]
  obtain ⟨⟨err, hval⟩, hcalls⟩ := hp
  refine ⟨⟨err, hval⟩, hcalls, by rw [hcalls]; rfl, ?_⟩
  intro start txData rest hdec
  have hb : (secretRequestBody env ssp start.world txData).val = none ∧
      (secretRequestBody env ssp start.world txData).calls =
        .decodeTx txData.Transaction (.ok (.requestSecret req)) ::
          (processSecretRequest env ssp w req).calls := by
    unfold secretRequestBody
    simp [hdec, hval]
  refine ⟨hb.1, by rw [hb.2, hcalls]; rfl, ?_⟩
  rw [secretRequestEvents_eq, secretRequestEvents_eq]
  simp [requestPhase, hb.1]

/-- Claim C5. With `canShareSecret = true` the returned collection is the list,
in request-list order, of the responses of the request events whose transaction
decodes to the request variant and whose `processSecretRequest` succeeds; every
event of both lists is decoded, whatever happened to the events before it; the
result has at most as many elements as the request list, and is empty when the
request list is empty. -/
theorem C5_responses_in_request_order (w : σ) (processed : ProcessedL1Data) :
    (ProcessNetworkSecretMsgs env ssp w processed true).val =
      expectedResponses env ssp
        (initialiseSecretEvents env ssp w (processed.GetEvents .InitialiseSecretTx)).world
        (processed.GetEvents .SecretRequestTx) ∧
    decodedTxs (ProcessNetworkSecretMsgs env ssp w processed true).calls =
      (processed.GetEvents .InitialiseSecretTx ++ processed.GetEvents .SecretRequestTx).map
        (fun txData => txData.Transaction) ∧
    (ProcessNetworkSecretMsgs env ssp w processed true).val.length ≤
      (processed.GetEvents .SecretRequestTx).length ∧
    (processed.GetEvents .SecretRequestTx = [] →
      (ProcessNetworkSecretMsgs env ssp w processed true).val = []) := by
  rw [ProcessNetworkSecretMsgs_eq, initialiseSecretEvents_eq]
  simp only [if_true]
  refine ⟨requestPhase_val_eq env ssp _ _, ?_, requestPhase_length_le env ssp _ _, ?_⟩
  · rw [decodedTxs_append, initialisePhase_decodedTxs, requestPhase_decodedTxs, List.map_append]
  · intro h
    rw [h]
    rfl

/-- Claim C6. The collaborator calls of `ProcessNetworkSecretMsgs`, hence the
sequence of `StoreNewEnclave` calls with their arguments, and the world left
behind, are the same for `canShareSecret = false` as for `true`; in particular,
on a bundle without initialise events whose request events are all valid (each
yields a response when sharing), the run with `canShareSecret = false` makes one
store call per request event, for the requesters of those responses in order,
and returns the empty collection. -/
theorem C6_store_calls_not_gated (w : σ) (processed : ProcessedL1Data) :
    (ProcessNetworkSecretMsgs env ssp w processed false).calls =
      (ProcessNetworkSecretMsgs env ssp w processed true).calls ∧
    (ProcessNetworkSecretMsgs env ssp w processed false).world =
      (ProcessNetworkSecretMsgs env ssp w processed true).world ∧
    storeCalls (ProcessNetworkSecretMsgs env ssp w processed false).calls =
      storeCalls (ProcessNetworkSecretMsgs env ssp w processed true).calls ∧
    (processed.GetEvents .InitialiseSecretTx = [] →
      (ProcessNetworkSecretMsgs env ssp w processed true).val.length =
        (processed.GetEvents .SecretRequestTx).length →
      (storeCalls (ProcessNetworkSecretMsgs env ssp w processed false).calls).length =
        (processed.GetEvents .SecretRequestTx).length ∧
      (storeCalls (ProcessNetworkSecretMsgs env ssp w processed false).calls).map Prod.fst =
        (ProcessNetworkSecretMsgs env ssp w processed true).val.map
          (fun resp => resp.RequesterID) ∧
      (ProcessNetworkSecretMsgs env ssp w processed false).val = []) := by
  refine ⟨by simp only [ProcessNetworkSecretMsgs_eq], by simp only [ProcessNetworkSecretMsgs_eq],
    by simp only [ProcessNetworkSecretMsgs_eq], ?_⟩
  simp only [ProcessNetworkSecretMsgs_eq]
  intro hinit hlen
  simp only [hinit, initialisePhase, List.nil_append, if_true] at hlen ⊢
  have hall := requestPhase_all_valid env ssp _ w hlen
  refine ⟨?_, hall, by simp⟩
  have := congrArg List.length hall
  simp only [List.length_map] at this
  omega

/-- Claim C7, amended. For an initialise event whose transaction decodes to the
initialise variant and whose attestation blob parses: when the public key
decompresses, `ProcessNetworkSecretMsgs` calls `StoreNewEnclave` with
`(report.EnclaveID, decompressed report.PubKey)` right after decoding the
transaction, and whatever the store answers the run goes on with the later
initialise events and the request events in the world the store leaves; when
the public key does not decompress, the iteration makes no call after the
decode (no `StoreNewEnclave` call for this event) and the run goes on in the
world the decode leaves.  In both cases every later event is decoded, the
initialise loop makes no verifier call, and initialise events add no response
(the result has at most one element per request event, none when there is no
request event). -/
theorem C7_initialise_event_stored_unverified (w : σ) (processed : ProcessedL1Data)
    (canShareSecret : Bool) (earlier later : List L1TxData) (txData : L1TxData)
    (i : L1InitializeSecretTx) (att : AttestationReport)
    (hev : processed.GetEvents .InitialiseSecretTx = earlier ++ txData :: later)
    (hdec : (ssp.enclaveRegistryLib.DecodeTx (initialiseSecretEvents env ssp w earlier).world
      txData.Transaction).1 = .ok (.initializeSecret i))
    (hatt : env.DecodeAttestation i.Attestation = .ok att) :
    (∀ key, env.DecompressPubkey att.PubKey = .ok key →
      (ProcessNetworkSecretMsgs env ssp w processed canShareSecret).calls =
        (initialiseSecretEvents env ssp w earlier).calls ++
          [.decodeTx txData.Transaction (.ok (.initializeSecret i)),
           .storeNewEnclave att.EnclaveID key (ssp.storage.StoreNewEnclave
             (ssp.enclaveRegistryLib.DecodeTx (initialiseSecretEvents env ssp w earlier).world
               txData.Transaction).2 att.EnclaveID key).1] ++
          (initialiseSecretEvents env ssp (ssp.storage.StoreNewEnclave
            (ssp.enclaveRegistryLib.DecodeTx (initialiseSecretEvents env ssp w earlier).world
              txData.Transaction).2 att.EnclaveID key).2 later).calls ++
          (secretRequestEvents env ssp
            ⟨(), (initialiseSecretEvents env ssp (ssp.storage.StoreNewEnclave
              (ssp.enclaveRegistryLib.DecodeTx (initialiseSecretEvents env ssp w earlier).world
                txData.Transaction).2 att.EnclaveID key).2 later).world, []⟩
            (processed.GetEvents .SecretRequestTx)).calls) ∧
    (∀ err, env.DecompressPubkey att.PubKey = .error err →
      (ProcessNetworkSecretMsgs env ssp w processed canShareSecret).calls =
        (initialiseSecretEvents env ssp w earlier).calls ++
          [.decodeTx txData.Transaction (.ok (.initializeSecret i))] ++
          (initialiseSecretEvents env ssp
            (ssp.enclaveRegistryLib.DecodeTx (initialiseSecretEvents env ssp w earlier).world
              txData.Transaction).2 later).calls ++
          (secretRequestEvents env ssp
            ⟨(), (initialiseSecretEvents env ssp
              (ssp.enclaveRegistryLib.DecodeTx (initialiseSecretEvents env ssp w earlier).world
                txData.Transaction).2 later).world, []⟩
            (processed.GetEvents .SecretRequestTx)).calls ∧
      storeCalls (ProcessNetworkSecretMsgs env ssp w processed canShareSecret).calls =
        storeCalls (initialiseSecretEvents env ssp w earlier).calls ++
          storeCalls (initialiseSecretEvents env ssp
            (ssp.enclaveRegistryLib.DecodeTx (initialiseSecretEvents env ssp w earlier).world
              txData.Transaction).2 later).calls ++
          storeCalls (secretRequestEvents env ssp
            ⟨(), (initialiseSecretEvents env ssp
              (ssp.enclaveRegistryLib.DecodeTx (initialiseSecretEvents env ssp w earlier).world
                txData.Transaction).2 later).world, []⟩
            (processed.GetEvents .SecretRequestTx)).calls) ∧
    (∀ v : σ,
      decodedTxs ((initialiseSecretEvents env ssp v later).calls ++
        (secretRequestEvents env ssp ⟨(), (initialiseSecretEvents env ssp v later).world, []⟩
          (processed.GetEvents .SecretRequestTx)).calls) =
        (later ++ processed.GetEvents .SecretRequestTx).map
          (fun txData => txData.Transaction)) ∧
    (∀ c ∈ (initialiseSecretEvents env ssp w (processed.GetEvents .InitialiseSecretTx)).calls,
      ∀ a r, c ≠ .verifyReport a r) ∧
    (ProcessNetworkSecretMsgs env ssp w processed canShareSecret).val.length ≤
      (processed.GetEvents .SecretRequestTx).length ∧
    (processed.GetEvents .SecretRequestTx = [] →
      (ProcessNetworkSecretMsgs env ssp w processed canShareSecret).val = []) := by
  have hsplit := ProcessNetworkSecretMsgs_calls_split env ssp w processed canShareSecret
    earlier later txData hev
  refine ⟨?_, ?_, ?_, ?_, ?_, ?_⟩
  · intro key hkey
    obtain ⟨hc, hw⟩ := initialiseSecretBody_stored env ssp _ txData i att key hdec hatt hkey
    rw [hsplit, hc, hw]
  · intro err hkey
    obtain ⟨hc, hw⟩ := initialiseSecretBody_malformed env ssp _ txData i att err hdec hatt hkey
    rw [hsplit, hc, hw]
    refine ⟨rfl, ?_⟩
    simp only [storeCalls_append, storeCalls, List.append_nil]
  · intro v
    simp only [initialiseSecretEvents_eq, secretRequestEvents_eq, List.nil_append]
    rw [decodedTxs_append, initialisePhase_decodedTxs, requestPhase_decodedTxs, List.map_append]
  · simp only [initialiseSecretEvents_eq]
    intro c hc a r
    obtain ⟨pre, hv⟩ := eachCall_mem
      (eachCall_initialisePhase env ssp (R := fun _ c => ∀ att r, c ≠ Call.verifyReport att r)
        (fun _ _ _ h => h) _
        (fun w t _ pre c post h => (initialiseSecretBody_store env ssp w t pre c post h).2.1)
        w) hc
    exact hv a r
  · simp only [ProcessNetworkSecretMsgs_eq]
    cases canShareSecret
    · simp
    · simpa using requestPhase_length_le env ssp _ _
  · intro h
    simp only [ProcessNetworkSecretMsgs_eq]
    rw [h]
    cases canShareSecret <;> rfl

/-- Claim C9, amended. The calls of `ProcessNetworkSecretMsgs` are those of the
initialise loop followed by those of the request loop.  Every `StoreNewEnclave`
call of the request loop comes right after the decode of a request transaction
of the bundle, a `VerifyReport` call on its attestation that returned without
error (with `VerifyIdentity` passing on the returned data) and a successful
sealing call, and writes `(att.EnclaveID, decompressed att.PubKey)`.  Every
`StoreNewEnclave` call of the initialise loop comes right after the decode of
an initialise transaction of the bundle and writes the binding of its
attestation; the initialise loop makes no verifier call. -/
theorem C9_store_calls_classified (w : σ) (processed : ProcessedL1Data)
    (canShareSecret : Bool) :
    (ProcessNetworkSecretMsgs env ssp w processed canShareSecret).calls =
      (initialiseSecretEvents env ssp w (processed.GetEvents .InitialiseSecretTx)).calls ++
      (secretRequestEvents env ssp
        ⟨(), (initialiseSecretEvents env ssp w
          (processed.GetEvents .InitialiseSecretTx)).world, []⟩
        (processed.GetEvents .SecretRequestTx)).calls ∧
    (∀ pre enclaveID key serr post,
      (secretRequestEvents env ssp
        ⟨(), (initialiseSecretEvents env ssp w
          (processed.GetEvents .InitialiseSecretTx)).world, []⟩
        (processed.GetEvents .SecretRequestTx)).calls =
        pre ++ .storeNewEnclave enclaveID key serr :: post →
      ∃ before txData req att data secret,
        pre = before ++ [.decodeTx txData.Transaction (.ok (.requestSecret req)),
                         .verifyReport att (.ok data),
                         .encryptSecretWithKey att.PubKey (.ok secret)] ∧
        txData ∈ processed.GetEvents .SecretRequestTx ∧
        env.DecodeAttestation req.Attestation = .ok att ∧
        env.VerifyIdentity data att = none ∧ enclaveID = att.EnclaveID ∧
        env.DecompressPubkey att.PubKey = .ok key) ∧
    (∀ pre enclaveID key serr post,
      (initialiseSecretEvents env ssp w (processed.GetEvents .InitialiseSecretTx)).calls =
        pre ++ .storeNewEnclave enclaveID key serr :: post →
      ∃ before txData i att,
        pre = before ++ [.decodeTx txData.Transaction (.ok (.initializeSecret i))] ∧
        txData ∈ processed.GetEvents .InitialiseSecretTx ∧
        env.DecodeAttestation i.Attestation = .ok att ∧ enclaveID = att.EnclaveID ∧
        env.DecompressPubkey att.PubKey = .ok key) ∧
    (∀ c ∈ (initialiseSecretEvents env ssp w (processed.GetEvents .InitialiseSecretTx)).calls,
      ∀ a r, c ≠ .verifyReport a r) := by
  simp only [ProcessNetworkSecretMsgs_eq, initialiseSecretEvents_eq, secretRequestEvents_eq,
    List.nil_append, true_and]
  refine ⟨?_, ?_, ?_⟩
  · intro pre enclaveID key serr post h
    exact eachCall_requestPhase env ssp (R := fun pre c => ∀ enclaveID key serr,
        c = Call.storeNewEnclave enclaveID key serr →
        ∃ before txData req att data secret,
          pre = before ++ [.decodeTx txData.Transaction (.ok (.requestSecret req)),
                           .verifyReport att (.ok data),
                           .encryptSecretWithKey att.PubKey (.ok secret)] ∧
          txData ∈ processed.GetEvents .SecretRequestTx ∧
          env.DecodeAttestation req.Attestation = .ok att ∧
          env.VerifyIdentity data att = none ∧ enclaveID = att.EnclaveID ∧
          env.DecompressPubkey att.PubKey = .ok key)
      (by
        rintro x pre c hR enclaveID key serr hc
        obtain ⟨before, txData, req, att, data, secret, rfl, hrest⟩ := hR enclaveID key serr hc
        exact ⟨x ++ before, txData, req, att, data, secret, by simp, hrest⟩)
      _
      (by
        intro w' txData hmem pre c post h enclaveID key serr hc
        obtain ⟨req, att, data, secret, rfl, hrest⟩ :=
          secretRequestBody_store env ssp w' txData pre c post h enclaveID key serr hc
        exact ⟨[], txData, req, att, data, secret, rfl, hmem, hrest⟩)
      _ pre _ post h enclaveID key serr rfl
  · intro pre enclaveID key serr post h
    exact eachCall_initialisePhase env ssp (R := fun pre c => ∀ enclaveID key serr,
        c = Call.storeNewEnclave enclaveID key serr →
        ∃ before txData i att,
          pre = before ++ [.decodeTx txData.Transaction (.ok (.initializeSecret i))] ∧
          txData ∈ processed.GetEvents .InitialiseSecretTx ∧
          env.DecodeAttestation i.Attestation = .ok att ∧ enclaveID = att.EnclaveID ∧
          env.DecompressPubkey att.PubKey = .ok key)
      (by
        rintro x pre c hR enclaveID key serr hc
        obtain ⟨before, txData, i, att, rfl, hrest⟩ := hR enclaveID key serr hc
        exact ⟨x ++ before, txData, i, att, by simp, hrest⟩)
      _
      (by
        intro w' txData hmem pre c post h enclaveID key serr hc
        obtain ⟨i, att, rfl, hrest⟩ :=
          (initialiseSecretBody_store env ssp w' txData pre c post h).1 enclaveID key serr hc
        exact ⟨[], txData, i, att, rfl, hmem, hrest⟩)
      _ pre _ post h enclaveID key serr rfl
  · intro c hc a r
    obtain ⟨pre, hv⟩ := eachCall_mem
      (eachCall_initialisePhase env ssp (R := fun _ c => ∀ att r, c ≠ Call.verifyReport att r)
        (fun _ _ _ h => h) _
        (fun w t _ pre c post h => (initialiseSecretBody_store env ssp w t pre c post h).2.1)
        w) hc
    exact hv a r

/-- Claim C10. In every run of `ProcessNetworkSecretMsgs`, each
`EncryptSecretWithKey` call comes right after the decode of a request
transaction of the bundle and a `VerifyReport` call on its decoded attestation
that returned without error, `VerifyIdentity` passed on the returned data, and
the argument of the call is the `PubKey` of that attestation; the initialise
loop, whose calls come first, makes no `EncryptSecretWithKey` call. -/
theorem C10_sealing_only_for_verified_keys (w : σ) (processed : ProcessedL1Data)
    (canShareSecret : Bool) :
    (∀ pre pk res post,
      (ProcessNetworkSecretMsgs env ssp w processed canShareSecret).calls =
        pre ++ .encryptSecretWithKey pk res :: post →
      ∃ before txData req att data,
        pre = before ++ [.decodeTx txData.Transaction (.ok (.requestSecret req)),
                         .verifyReport att (.ok data)] ∧
        txData ∈ processed.GetEvents .SecretRequestTx ∧
        env.DecodeAttestation req.Attestation = .ok att ∧
        env.VerifyIdentity data att = none ∧ pk = att.PubKey) ∧
    (∃ rest, (ProcessNetworkSecretMsgs env ssp w processed canShareSecret).calls =
      (initialiseSecretEvents env ssp w (processed.GetEvents .InitialiseSecretTx)).calls ++
        rest) ∧
    (∀ c ∈ (initialiseSecretEvents env ssp w (processed.GetEvents .InitialiseSecretTx)).calls,
      ∀ pk res, c ≠ .encryptSecretWithKey pk res) := by
  simp only [ProcessNetworkSecretMsgs_eq, initialiseSecretEvents_eq]
  have hmono : ∀ (x pre : List Call) (c : Call),
      (∀ pk res, c = Call.encryptSecretWithKey pk res →
        ∃ (before : List Call) (txData : L1TxData) (req : L1RequestSecretTx)
          (att : AttestationReport) (data : Bytes),
          pre = before ++ [Call.decodeTx txData.Transaction (.ok (.requestSecret req)),
                           Call.verifyReport att (.ok data)] ∧
          txData ∈ processed.GetEvents .SecretRequestTx ∧
          env.DecodeAttestation req.Attestation = .ok att ∧
          env.VerifyIdentity data att = none ∧ pk = att.PubKey) →
      (∀ pk res, c = Call.encryptSecretWithKey pk res →
        ∃ (before : List Call) (txData : L1TxData) (req : L1RequestSecretTx)
          (att : AttestationReport) (data : Bytes),
          x ++ pre = before ++ [Call.decodeTx txData.Transaction (.ok (.requestSecret req)),
                           Call.verifyReport att (.ok data)] ∧
          txData ∈ processed.GetEvents .SecretRequestTx ∧
          env.DecodeAttestation req.Attestation = .ok att ∧
          env.VerifyIdentity data att = none ∧ pk = att.PubKey) := by
    rintro x pre c hR pk res hc
    obtain ⟨before, txData, req, att, data, rfl, hrest⟩ := hR pk res hc
    exact ⟨x ++ before, txData, req, att, data, by simp, hrest⟩
  refine ⟨?_, ⟨_, rfl⟩, ?_⟩
  · intro pre pk res post h
    refine eachCall_append (R := fun pre c => ∀ pk res, c = Call.encryptSecretWithKey pk res →
        ∃ before txData req att data,
          pre = before ++ [.decodeTx txData.Transaction (.ok (.requestSecret req)),
                           .verifyReport att (.ok data)] ∧
          txData ∈ processed.GetEvents .SecretRequestTx ∧
          env.DecodeAttestation req.Attestation = .ok att ∧
          env.VerifyIdentity data att = none ∧ pk = att.PubKey)
      hmono ?_ ?_ pre _ post h pk res rfl
    · exact eachCall_initialisePhase env ssp hmono _
        (fun w' t _ pre c post h pk res hc =>
          absurd hc ((initialiseSecretBody_store env ssp w' t pre c post h).2.2 pk res)) w
    · exact eachCall_requestPhase env ssp hmono _
        (by
          intro w' txData hmem pre c post h pk res hc
          obtain ⟨req, att, data, rfl, hrest⟩ :=
            secretRequestBody_encrypt env ssp w' txData pre c post h pk res hc
          exact ⟨[], txData, req, att, data, rfl, hmem, hrest⟩) _
  · intro c hc pk res
    obtain ⟨pre, hv⟩ := eachCall_mem
      (eachCall_initialisePhase env ssp
        (R := fun _ c => ∀ pk res, c ≠ Call.encryptSecretWithKey pk res)
        (fun _ _ _ h => h) _
        (fun w t _ pre c post h => (initialiseSecretBody_store env ssp w t pre c post h).2.2)
        w) hc
    exact hv pk res

end Lemmas

section Concrete

/-- The happy path: one valid request, sharing on.  One response, and the calls
of the whole pipeline in program order; the store accepted one write. -/
theorem happyPath_run :
    (ProcessNetworkSecretMsgs demoEnv demoProcessor 0
      (bundleOf [] [⟨[2, 170, 1, 2, 7, 2, 7]⟩]) true).val = [validResponse] ∧
    (ProcessNetworkSecretMsgs demoEnv demoProcessor 0
      (bundleOf [] [⟨[2, 170, 1, 2, 7, 2, 7]⟩]) true).calls =
      [.decodeTx [2, 170, 1, 2, 7, 2, 7] (.ok (.requestSecret validRequest)),
       .verifyReport validAttestation (.ok [2, 7]),
       .encryptSecretWithKey [2, 7] (.ok [48, 2, 7]),
       .storeNewEnclave 170 ⟨7, 14⟩ none,
       .getContractAddr 15,
       .sign [170, 48, 2, 7, 443, 15] (.ok [65, 170, 48, 2, 7, 443, 15])] ∧
    (ProcessNetworkSecretMsgs demoEnv demoProcessor 0
      (bundleOf [] [⟨[2, 170, 1, 2, 7, 2, 7]⟩]) true).world = 1 :=
  ⟨rfl, rfl, rfl⟩

/-- The mixed bundle: both initialise events reach the store (the first is
refused), the request is answered, and the store accepted two writes. -/
theorem mixedBundle_run :
    (ProcessNetworkSecretMsgs demoEnv demoProcessor 0 mixedBundle true).val = [validResponse] ∧
    storeCalls (ProcessNetworkSecretMsgs demoEnv demoProcessor 0 mixedBundle true).calls =
      [(0, ⟨7, 14⟩), (170, ⟨4, 9⟩), (170, ⟨7, 14⟩)] ∧
    (ProcessNetworkSecretMsgs demoEnv demoProcessor 0 mixedBundle true).world = 2 ∧
    (ProcessNetworkSecretMsgs demoEnv demoProcessor 0 mixedBundle false).val = [] :=
  ⟨rfl, rfl, rfl, rfl⟩

/-- The rejected request of the concrete processor: no store call, an error. -/
theorem C2_rejected_request_witness :
    demoEnv.DecodeAttestation rejectedRequest.Attestation = .ok rejectedAttestation ∧
    (∃ err, (processSecretRequest demoEnv demoProcessor 0 rejectedRequest).val = .error err) ∧
    storeCalls (processSecretRequest demoEnv demoProcessor 0 rejectedRequest).calls = [] :=
  have h := C2_rejected_request demoEnv demoProcessor 0 rejectedRequest rejectedAttestation rfl
    (Or.inl ⟨.base "quote rejected", rfl⟩)
  ⟨rfl, h.1, h.2.2.1⟩

/-- The valid request of the concrete processor yields `validResponse`. -/
theorem C3_response_iff_all_steps_succeed_witness :
    (processSecretRequest demoEnv demoProcessor 0 validRequest).val = .ok validResponse :=
  (C3_response_iff_all_steps_succeed demoEnv demoProcessor 0 validRequest validResponse).mpr
    ⟨validAttestation, [2, 7], [48, 2, 7], ⟨7, 14⟩, 15, [170, 48, 2, 7, 443, 15],
      [65, 170, 48, 2, 7, 443, 15], 0, 0, 1, 1, 1, rfl, rfl, rfl, rfl, rfl, rfl, rfl, rfl, rfl,
      rfl, rfl, rfl⟩

/-- The response of the concrete processor to the valid request carries the
fields of its attestation, the local enclave id 1, the ciphertext and the
signature. -/
theorem C4_response_fields_witness :
    demoEnv.DecodeAttestation validRequest.Attestation = .ok validAttestation ∧
    (processSecretRequest demoEnv demoProcessor 0 validRequest).val = .ok validResponse ∧
    validResponse.RequesterID = validAttestation.EnclaveID ∧
    validResponse.AttesterID = 1 ∧
    validResponse.HostAddress = validAttestation.HostAddress :=
  have h := C4_response_fields demoEnv demoProcessor.enclaveRegistryLib
    demoProcessor.attestationProvider 1 demoProcessor.storage demoProcessor.sharedSecretService
    demoProcessor.enclaveKeyService 443 0 validRequest validAttestation validResponse rfl rfl
  ⟨rfl, rfl, h.1, h.2.1, h.2.2.1⟩

/-- Three valid requests, sharing switched off: three store calls, for enclaves
170, 171 and 172, and no response. -/
theorem C6_store_calls_not_gated_witness :
    (ProcessNetworkSecretMsgs demoEnv demoProcessor 0 threeValidRequests true).val.length = 3 ∧
    (storeCalls
      (ProcessNetworkSecretMsgs demoEnv demoProcessor 0 threeValidRequests false).calls).length
      = 3 ∧
    (storeCalls
      (ProcessNetworkSecretMsgs demoEnv demoProcessor 0 threeValidRequests false).calls).map
      Prod.fst = [170, 171, 172] ∧
    (ProcessNetworkSecretMsgs demoEnv demoProcessor 0 threeValidRequests false).val = [] :=
  have h := (C6_store_calls_not_gated demoEnv demoProcessor 0 threeValidRequests).2.2.2 rfl rfl
  ⟨rfl, h.1, h.2.1, h.2.2⟩

/-- In the mixed bundle the first initialise event (enclave 0) is stored without
verification, the store refuses it, and the run goes on with the two later
events; in the bundle with the malformed key the iteration stops at the decode
and no store call is made. -/
theorem C7_initialise_event_stored_unverified_witness :
    (demoEnv.DecodeAttestation [0, 1, 2, 7, 2, 7] =
      .ok { Report := [1, 2, 7], PubKey := [2, 7], EnclaveID := 0,
            HostAddress := "node-2:10000" } ∧
    demoEnv.DecompressPubkey [2, 7] = .ok ⟨7, 14⟩ ∧
    (ProcessNetworkSecretMsgs demoEnv demoProcessor 0 mixedBundle true).calls =
      [] ++ [.decodeTx [1, 0, 1, 2, 7, 2, 7] (.ok (.initializeSecret ⟨[0, 1, 2, 7, 2, 7]⟩)),
       .storeNewEnclave 0 ⟨7, 14⟩ (some (.base "storage failure"))] ++
      (initialiseSecretEvents demoEnv demoProcessor 0 [⟨[1, 170, 0, 9, 9, 3, 4]⟩]).calls ++
      (secretRequestEvents demoEnv demoProcessor ⟨(), 1, []⟩
        [⟨[2, 170, 1, 2, 7, 2, 7]⟩]).calls) ∧
    (demoEnv.DecodeAttestation [170, 1, 5, 5, 5, 5] =
      .ok { Report := [1, 5, 5], PubKey := [5, 5], EnclaveID := 170,
            HostAddress := "node-2:10000" } ∧
    demoEnv.DecompressPubkey [5, 5] = .error (.base "invalid public key") ∧
    storeCalls
      (ProcessNetworkSecretMsgs demoEnv demoProcessor 0 malformedKeyInitialise false).calls =
      [] ++ [] ++ []) :=
  ⟨⟨rfl, rfl,
    (C7_initialise_event_stored_unverified demoEnv demoProcessor 0 mixedBundle true []
      [⟨[1, 170, 0, 9, 9, 3, 4]⟩] ⟨[1, 0, 1, 2, 7, 2, 7]⟩ ⟨[0, 1, 2, 7, 2, 7]⟩
      { Report := [1, 2, 7], PubKey := [2, 7], EnclaveID := 0, HostAddress := "node-2:10000" }
      rfl rfl rfl).1 ⟨7, 14⟩ rfl⟩,
   ⟨rfl, rfl,
    ((C7_initialise_event_stored_unverified demoEnv demoProcessor 0 malformedKeyInitialise false
      [] [] ⟨[1, 170, 1, 5, 5, 5, 5]⟩ ⟨[170, 1, 5, 5, 5, 5]⟩
      { Report := [1, 5, 5], PubKey := [5, 5], EnclaveID := 170, HostAddress := "node-2:10000" }
      rfl rfl rfl).2.1 (.base "invalid public key") rfl).2⟩⟩

/-- An initialise event whose attestation parses but whose public key does not
decompress: no `StoreNewEnclave` call is made for it. -/
theorem C7_counterexample :
    (demoProcessor.enclaveRegistryLib.DecodeTx 0 [1, 170, 1, 5, 5, 5, 5]).1 =
      .ok (.initializeSecret ⟨[170, 1, 5, 5, 5, 5]⟩) ∧
    demoEnv.DecodeAttestation [170, 1, 5, 5, 5, 5] =
      .ok { Report := [1, 5, 5], PubKey := [5, 5], EnclaveID := 170,
            HostAddress := "node-2:10000" } ∧
    (ProcessNetworkSecretMsgs demoEnv demoProcessor 0 malformedKeyInitialise true).calls =
      [.decodeTx [1, 170, 1, 5, 5, 5, 5] (.ok (.initializeSecret ⟨[170, 1, 5, 5, 5, 5]⟩))] ∧
    storeCalls
      (ProcessNetworkSecretMsgs demoEnv demoProcessor 0 malformedKeyInitialise true).calls = [] :=
  ⟨rfl, rfl, rfl, rfl⟩

/-- Two valid requests handled in different worlds are signed over the same hash. -/
theorem C8_signed_hash_witness :
    (processSecretRequest demoEnv demoProcessor 0 validRequest).val = .ok validResponse ∧
    (processSecretRequest demoEnv demoProcessor 5 validRequest).val = .ok validResponse ∧
    signedHashes (processSecretRequest demoEnv demoProcessor 0 validRequest).calls =
      signedHashes (processSecretRequest demoEnv demoProcessor 5 validRequest).calls :=
  ⟨rfl, rfl,
    (C8_signed_hash demoEnv demoProcessor demoProcessor 0 5 validRequest validRequest
      validResponse validResponse rfl rfl).2 rfl rfl rfl rfl⟩

/-- An initialise event whose report the verifier rejects is stored all the
same: the run makes a `StoreNewEnclave` call that no accepting `VerifyReport`
call precedes. -/
theorem C9_counterexample :
    (∃ err, (demoProcessor.attestationProvider.VerifyReport 0 unverifiedAttestation).1 =
      .error err) ∧
    demoEnv.VerifyIdentity [9, 9] unverifiedAttestation ≠ none ∧
    (ProcessNetworkSecretMsgs demoEnv demoProcessor 0 unverifiedInitialise true).calls =
      [.decodeTx [1, 170, 0, 9, 9, 2, 7] (.ok (.initializeSecret ⟨[170, 0, 9, 9, 2, 7]⟩)),
       .storeNewEnclave 170 ⟨7, 14⟩ none] ∧
    ¬ ∀ pre enclaveID key serr post,
      (ProcessNetworkSecretMsgs demoEnv demoProcessor 0 unverifiedInitialise true).calls =
        pre ++ .storeNewEnclave enclaveID key serr :: post →
      ∃ att data, Call.verifyReport att (.ok data) ∈ pre := by
  refine ⟨⟨.base "quote rejected", rfl⟩, by decide, rfl, ?_⟩
  intro h
  obtain ⟨att, data, hmem⟩ := h
    [.decodeTx [1, 170, 0, 9, 9, 2, 7] (.ok (.initializeSecret ⟨[170, 0, 9, 9, 2, 7]⟩))]
    170 ⟨7, 14⟩ none [] rfl
  simp at hmem

end Concrete

end SharedSecret
